import Mathlib

/-!
Shallow embedding of the wallet-ledger / escrow-engine core of the repository
(src/server/models/Wallet.js, src/server/models/Escrow.js, the Transaction
model, and the two Express routers: the wallet routes and the escrow routes,
real MongoDB branch).

Modelling conventions:
* Money amounts are rationals (JS numbers; the 5 percent platform fee
  amount * 0.05 is modelled exactly as amount * (5 / 100); IEEE-754 rounding
  is not modelled — at the concrete amounts used in the claims the double
  arithmetic is exact).
* Mongo documents become Lean structures; a saved document replaces the
  stored record with the same key. The pre-save hook on Wallet is applied by
  walletSave on every save. Date-valued fields (lastUpdated, fundedAt, ...)
  are outside the embedding: no claim mentions them.
* Each route handler becomes a function Store -> args -> Store x Option
  ApiError. The returned store reflects every write the handler committed,
  also on error paths (the getUserWallet middleware commits a lazily created
  wallet before the handler validates its input).
* Object ids become Nat counters; the ids of payment methods are the strings
  pm_<n>.
* Only the real (MongoDB connected) branch of each handler is embedded; the
  in-memory mock branch is the fallback store the spec treats as an external
  collaborator.
-/

/-- One entry of Wallet.escrowReserves: the escrow it belongs to and the
reserved amount. -/
structure Reserve where
  escrowId : Nat
  amount : ℚ
deriving DecidableEq

/-- One entry of Wallet.paymentMethods (card / Stripe details are external
plumbing and carry no ledger state). -/
structure PaymentMethod where
  id : String
  type : String
  name : String
  isDefault : Bool
deriving DecidableEq

/-- Transaction.type enum. -/
inductive TxType where
  | deposit
  | withdrawal
  | payment
  | refund
  | escrow
deriving DecidableEq

/-- Transaction.status enum. -/
inductive TxStatus where
  | pending
  | completed
  | failed
  | refunded
deriving DecidableEq

/-- A document of the Transaction model. -/
structure Transaction where
  id : Nat
  userId : String
  amount : ℚ
  currency : String
  status : TxStatus
  paymentMethodId : String
  type : TxType
  description : String
  reference : Option Nat
deriving DecidableEq

/-- Escrow.status enum. -/
inductive EscrowStatus where
  | created
  | funded
  | in_progress
  | delivered
  | approved
  | disputed
  | refunded
  | released
  | cancelled
deriving DecidableEq

/-- A document of the Escrow model. -/
structure Escrow where
  id : Nat
  clientId : String
  freelancerId : String
  serviceId : Option String
  serviceName : String
  description : String
  amount : ℚ
  currency : String
  platformFee : ℚ
  paymentMethodId : String
  transactionId : Option Nat
  status : EscrowStatus
  deliveryMessage : Option String
  deliveryFiles : List String
  approvalRating : Option Nat
  approvalFeedback : Option String
  disputeReason : Option String
  terms : Option String
deriving DecidableEq

/-- A document of the Wallet model. -/
structure Wallet where
  userId : String
  balance : ℚ
  currency : String
  reservedBalance : ℚ
  escrowReserves : List Reserve
  paymentMethods : List PaymentMethod
  transactionIds : List Nat
deriving DecidableEq

/-- The error bodies the handlers return (HTTP status paired with the JSON
shape). insufficientFunds carries availableBalance and requested;
insufficientFundsFee is the second create check, which additionally carries
platformFee. serverError is the catch-all 500. -/
inductive ApiError where
  | validation (msg : String)
  | notFound (msg : String)
  | notAuthorized (msg : String)
  | insufficientFunds (availableBalance requested : ℚ)
  | insufficientFundsFee (availableBalance requested platformFee : ℚ)
  | invalidState (current required : EscrowStatus)
  | serverError (msg : String)
deriving DecidableEq

/-- The MongoDB collections plus the id counters. -/
structure Store where
  wallets : List Wallet
  escrows : List Escrow
  transactions : List Transaction
  nextTxId : Nat
  nextEscrowId : Nat
  nextPmId : Nat
deriving DecidableEq

/-- The store before any operation. -/
def emptyStore : Store :=
  { wallets := [], escrows := [], transactions := [], nextTxId := 0,
    nextEscrowId := 0, nextPmId := 0 }

/-- Sum of the amounts of a list of escrow reserves. -/
def reservesSum (rs : List Reserve) : ℚ :=
  (rs.map Reserve.amount).sum

/-- WalletSchema.methods.recalculateReservedBalance: reservedBalance :=
sum of escrowReserves amounts. -/
def recalculateReservedBalance (w : Wallet) : Wallet :=
  { w with reservedBalance := reservesSum w.escrowReserves }

/-- The WalletSchema pre-save hook: recalculate reservedBalance, but only
when escrowReserves is non-empty. Applied on every wallet save. -/
def walletSave (w : Wallet) : Wallet :=
  if w.escrowReserves.length > 0 then recalculateReservedBalance w else w

/-- WalletSchema.methods.getAvailableBalance. -/
def getAvailableBalance (w : Wallet) : ℚ :=
  w.balance - w.reservedBalance

/-- Wallet.findOne on userId (userId is a unique key). -/
def findWallet (s : Store) (userId : String) : Option Wallet :=
  s.wallets.find? (fun w => w.userId == userId)

/-- A wallet as freshly constructed by new Wallet with zero balance. -/
def newWallet (userId : String) : Wallet :=
  { userId := userId, balance := 0, currency := "TND", reservedBalance := 0,
    escrowReserves := [], paymentMethods := [], transactionIds := [] }

/-- Committing a wallet document: replace the record with the same userId,
or insert the document when the key is new. -/
def upsertWallet (ws : List Wallet) (w : Wallet) : List Wallet :=
  if ws.any (fun x => x.userId == w.userId) then
    ws.map (fun x => if x.userId == w.userId then w else x)
  else ws ++ [w]

/-- The getUserWallet middleware / the escrow router helper getWallet:
find the wallet for userId, creating and saving a zero-balance wallet when
none exists. Returns the wallet together with the store. -/
def getOrCreateWallet (s : Store) (userId : String) : Wallet × Store :=
  match findWallet s userId with
  | some w => (w, s)
  | none =>
      let w := walletSave (newWallet userId)
      (w, { s with wallets := s.wallets ++ [w] })

/-- Balance of the wallet of a user, zero when the user has no wallet. -/
def balanceOf (s : Store) (userId : String) : ℚ :=
  match findWallet s userId with
  | some w => w.balance
  | none => 0

/-- Reserved balance of the wallet of a user, zero when absent. -/
def reservedOf (s : Store) (userId : String) : ℚ :=
  match findWallet s userId with
  | some w => w.reservedBalance
  | none => 0

/-- Escrow reserves list of the wallet of a user, empty when absent. -/
def reservesOf (s : Store) (userId : String) : List Reserve :=
  match findWallet s userId with
  | some w => w.escrowReserves
  | none => []

/-- Status of an escrow document by id. -/
def escrowStatusOf (s : Store) (escrowId : Nat) : Option EscrowStatus :=
  (s.escrows.find? (fun e => e.id == escrowId)).map Escrow.status

/-- Sum of the signed amounts of the transactions recorded for a user. -/
def txSum (ts : List Transaction) (userId : String) : ℚ :=
  ((ts.filter fun t => t.userId == userId).map Transaction.amount).sum

/-- POST /wallet/:userId/deposit, real branch. Middleware wallet lookup,
input validation, payment-method resolution, then transaction.save followed
by wallet.save (two separately committed writes). -/
def deposit (s : Store) (userId : String) (amount : ℚ)
    (currency paymentMethodId : String) : Store × Option ApiError :=
  if userId = "" then (s, some (.validation "User ID is required")) else
  let ws := getOrCreateWallet s userId
  let w := ws.1
  let s1 := ws.2
  if amount ≤ 0 then (s1, some (.validation "Valid amount is required")) else
  if paymentMethodId = "" then
    (s1, some (.validation "Payment method ID is required")) else
  match w.paymentMethods.find? (fun m => m.id == paymentMethodId) with
  | none => (s1, some (.notFound "Payment method not found"))
  | some _ =>
      let tx : Transaction :=
        { id := s1.nextTxId, userId := userId, amount := amount,
          currency := currency, status := .completed,
          paymentMethodId := paymentMethodId, type := .deposit,
          description := "Wallet deposit", reference := none }
      let sA := { s1 with transactions := s1.transactions ++ [tx],
                          nextTxId := s1.nextTxId + 1 }
      let w1 := { w with balance := w.balance + amount,
                         transactionIds := w.transactionIds ++ [tx.id] }
      let sB := { sA with wallets := upsertWallet sA.wallets (walletSave w1) }
      (sB, none)

/-- The separately committed store states along the success path of a real
deposit: first the transaction.save commit, then the wallet.save commit.
There is no session around the two writes in the source. -/
def depositCommitStates (s : Store) (userId : String) (amount : ℚ)
    (currency paymentMethodId : String) : List Store :=
  let ws := getOrCreateWallet s userId
  let w := ws.1
  let s1 := ws.2
  let tx : Transaction :=
    { id := s1.nextTxId, userId := userId, amount := amount,
      currency := currency, status := .completed,
      paymentMethodId := paymentMethodId, type := .deposit,
      description := "Wallet deposit", reference := none }
  let sA := { s1 with transactions := s1.transactions ++ [tx],
                      nextTxId := s1.nextTxId + 1 }
  let w1 := { w with balance := w.balance + amount,
                     transactionIds := w.transactionIds ++ [tx.id] }
  let sB := { sA with wallets := upsertWallet sA.wallets (walletSave w1) }
  [sA, sB]

/-- POST /wallet/:userId/withdraw, real branch. Input validation, then the
available-balance check, then payment-method resolution, then
transaction.save followed by wallet.save. -/
def withdraw (s : Store) (userId : String) (amount : ℚ)
    (currency paymentMethodId : String) : Store × Option ApiError :=
  if userId = "" then (s, some (.validation "User ID is required")) else
  let ws := getOrCreateWallet s userId
  let w := ws.1
  let s1 := ws.2
  if amount ≤ 0 then (s1, some (.validation "Valid amount is required")) else
  if paymentMethodId = "" then
    (s1, some (.validation "Payment method ID is required")) else
  let availableBalance := w.balance - w.reservedBalance
  if amount > availableBalance then
    (s1, some (.insufficientFunds availableBalance amount)) else
  match w.paymentMethods.find? (fun m => m.id == paymentMethodId) with
  | none => (s1, some (.notFound "Payment method not found"))
  | some _ =>
      let tx : Transaction :=
        { id := s1.nextTxId, userId := userId, amount := -amount,
          currency := currency, status := .completed,
          paymentMethodId := paymentMethodId, type := .withdrawal,
          description := "Wallet withdrawal", reference := none }
      let sA := { s1 with transactions := s1.transactions ++ [tx],
                          nextTxId := s1.nextTxId + 1 }
      let w1 := { w with balance := w.balance - amount,
                         transactionIds := w.transactionIds ++ [tx.id] }
      let sB := { sA with wallets := upsertWallet sA.wallets (walletSave w1) }
      (sB, none)

/-- POST /wallet/:userId/payment-methods, real branch (the Stripe call is
external plumbing). A new method is default when requested or when the
wallet had no methods; defaulting clears isDefault on the others. -/
def addPaymentMethod (s : Store) (userId type name : String)
    (isDefault : Bool) : Store × Option ApiError :=
  if userId = "" then (s, some (.validation "User ID is required")) else
  let ws := getOrCreateWallet s userId
  let w := ws.1
  let s1 := ws.2
  if type = "" then
    (s1, some (.validation "Payment method type is required")) else
  let newMethod : PaymentMethod :=
    { id := "pm_" ++ toString s1.nextPmId, type := type,
      name := if name = "" then type else name,
      isDefault := isDefault || w.paymentMethods.length == 0 }
  let methods :=
    if newMethod.isDefault then
      w.paymentMethods.map (fun m => { m with isDefault := false })
    else w.paymentMethods
  let w1 := { w with paymentMethods := methods ++ [newMethod] }
  let s2 := { s1 with wallets := upsertWallet s1.wallets (walletSave w1),
                      nextPmId := s1.nextPmId + 1 }
  (s2, none)

/-- Promote the first method whose id differs from methodId to default
(the removal handler does this before removing a default method). -/
def promoteFirstOther (ms : List PaymentMethod) (methodId : String) :
    List PaymentMethod :=
  match ms.findIdx? (fun m => !(m.id == methodId)) with
  | some j =>
      ms.enum.map (fun p => if p.1 = j then { p.2 with isDefault := true }
                            else p.2)
  | none => ms

/-- DELETE /wallet/:userId/payment-methods/:methodId, real branch. -/
def removePaymentMethod (s : Store) (userId methodId : String) :
    Store × Option ApiError :=
  if userId = "" then (s, some (.validation "User ID is required")) else
  let ws := getOrCreateWallet s userId
  let w := ws.1
  let s1 := ws.2
  match w.paymentMethods.findIdx? (fun m => m.id == methodId) with
  | none => (s1, some (.notFound "Payment method not found"))
  | some methodIndex =>
      match w.paymentMethods.get? methodIndex with
      | none => (s1, some (.notFound "Payment method not found"))
      | some pm =>
          if pm.isDefault && w.paymentMethods.length == 1 then
            (s1, some (.validation "Cannot remove the only payment method"))
          else
            let methods1 :=
              if pm.isDefault && w.paymentMethods.length > 1 then
                promoteFirstOther w.paymentMethods methodId
              else w.paymentMethods
            let w1 := { w with paymentMethods := methods1.eraseIdx methodIndex }
            let s2 := { s1 with
              wallets := upsertWallet s1.wallets (walletSave w1) }
            (s2, none)

/-- PUT /wallet/:userId/payment-methods/:methodId/default, real branch. -/
def setDefaultPaymentMethod (s : Store) (userId methodId : String) :
    Store × Option ApiError :=
  if userId = "" then (s, some (.validation "User ID is required")) else
  let ws := getOrCreateWallet s userId
  let w := ws.1
  let s1 := ws.2
  if w.paymentMethods.any (fun m => m.id == methodId) then
    let w1 := { w with paymentMethods :=
      w.paymentMethods.map (fun m => { m with isDefault := m.id == methodId }) }
    let s2 := { s1 with wallets := upsertWallet s1.wallets (walletSave w1) }
    (s2, none)
  else (s1, some (.notFound "Payment method not found"))

/-- POST / on the escrow router, real branch: validate, lazily fetch the
client wallet, run the two funds checks, then save the transaction, the
escrow (already marked funded) and the debited client wallet as three
sequential writes. -/
def createEscrow (s : Store) (clientId freelancerId : String)
    (serviceId : Option String) (serviceName description : String)
    (amount : ℚ) (currency paymentMethodId : String)
    (terms : Option String) : Store × Option ApiError :=
  if clientId = "" ∨ freelancerId = "" ∨ serviceName = "" ∨ description = ""
      ∨ amount = 0 ∨ paymentMethodId = "" then
    (s, some (.validation "Missing required fields"))
  else if amount ≤ 0 then
    (s, some (.validation "Amount must be greater than zero"))
  else
    let ws := getOrCreateWallet s clientId
    let clientWallet := ws.1
    let s1 := ws.2
    let availableBalance := clientWallet.balance - clientWallet.reservedBalance
    if amount > availableBalance then
      (s1, some (.insufficientFunds availableBalance amount))
    else
      let platformFee := amount * (5 / 100)
      let totalAmount := amount + platformFee
      if totalAmount > availableBalance then
        (s1, some (.insufficientFundsFee availableBalance totalAmount
                    platformFee))
      else
        let escrowId := s1.nextEscrowId
        let tx : Transaction :=
          { id := s1.nextTxId, userId := clientId, amount := -totalAmount,
            currency := currency, status := .completed,
            paymentMethodId := paymentMethodId, type := .escrow,
            description := "Escrow payment for " ++ serviceName,
            reference := some escrowId }
        let escrow : Escrow :=
          { id := escrowId, clientId := clientId,
            freelancerId := freelancerId, serviceId := serviceId,
            serviceName := serviceName, description := description,
            amount := amount, currency := currency,
            platformFee := platformFee, paymentMethodId := paymentMethodId,
            transactionId := some tx.id, status := .funded,
            deliveryMessage := none, deliveryFiles := [],
            approvalRating := none, approvalFeedback := none,
            disputeReason := none, terms := terms }
        let clientWallet1 := { clientWallet with
          balance := clientWallet.balance - totalAmount,
          reservedBalance := clientWallet.reservedBalance + amount,
          escrowReserves := clientWallet.escrowReserves ++
            [{ escrowId := escrowId, amount := amount }],
          transactionIds := clientWallet.transactionIds ++ [tx.id] }
        let s2 := { s1 with
          transactions := s1.transactions ++ [tx],
          escrows := s1.escrows ++ [escrow],
          wallets := upsertWallet s1.wallets (walletSave clientWallet1),
          nextTxId := s1.nextTxId + 1,
          nextEscrowId := s1.nextEscrowId + 1 }
        (s2, none)

/-- Replace the escrow document with the given id. -/
def updateEscrow (es : List Escrow) (escrowId : Nat) (e1 : Escrow) :
    List Escrow :=
  es.map (fun e => if e.id == escrowId then e1 else e)

/-- POST /:escrowId/start, real branch: authorization, then the funded
state check, then the status update. -/
def startEscrow (s : Store) (escrowId : Nat) (freelancerId : String) :
    Store × Option ApiError :=
  if freelancerId = "" then
    (s, some (.validation "Freelancer ID is required")) else
  match s.escrows.find? (fun e => e.id == escrowId) with
  | none => (s, some (.notFound "Escrow not found"))
  | some escrow =>
      if escrow.freelancerId ≠ freelancerId then
        (s, some (.notAuthorized "Not authorized to start this escrow"))
      else if escrow.status ≠ .funded then
        (s, some (.invalidState escrow.status .funded))
      else
        let escrow1 := { escrow with status := .in_progress }
        ({ s with escrows := updateEscrow s.escrows escrowId escrow1 }, none)

/-- POST /:escrowId/deliver, real branch. -/
def deliverEscrow (s : Store) (escrowId : Nat)
    (freelancerId deliveryMessage : String)
    (deliveryFiles : Option (List String)) : Store × Option ApiError :=
  if freelancerId = "" ∨ deliveryMessage = "" then
    (s, some (.validation "Freelancer ID and delivery message are required"))
  else
  match s.escrows.find? (fun e => e.id == escrowId) with
  | none => (s, some (.notFound "Escrow not found"))
  | some escrow =>
      if escrow.freelancerId ≠ freelancerId then
        (s, some (.notAuthorized "Not authorized to deliver for this escrow"))
      else if escrow.status ≠ .in_progress then
        (s, some (.invalidState escrow.status .in_progress))
      else
        let escrow1 := { escrow with
          status := .delivered,
          deliveryMessage := some deliveryMessage,
          deliveryFiles := (match deliveryFiles with
            | some fs => fs
            | none => escrow.deliveryFiles) }
        ({ s with escrows := updateEscrow s.escrows escrowId escrow1 }, none)

/-- POST /:escrowId/approve, real branch. Authorization and state checks,
then one mongoose session containing: payment transaction save, escrow save,
client wallet save (reserve entry removed when present, reservedBalance
recalculated), freelancer wallet save (created when absent, credited by
escrow.amount). A missing client wallet throws inside the session (500). -/
def approveEscrow (s : Store) (escrowId : Nat) (clientId : String)
    (rating : Option Nat) (feedback : Option String) :
    Store × Option ApiError :=
  if clientId = "" then (s, some (.validation "Client ID is required")) else
  match s.escrows.find? (fun e => e.id == escrowId) with
  | none => (s, some (.notFound "Escrow not found"))
  | some escrow =>
      if escrow.clientId ≠ clientId then
        (s, some (.notAuthorized "Not authorized to approve this escrow"))
      else if escrow.status ≠ .delivered then
        (s, some (.invalidState escrow.status .delivered))
      else
        match findWallet s escrow.clientId with
        | none => (s, some (.serverError "Failed to approve escrow"))
        | some clientWallet =>
            let freelancerWallet :=
              match findWallet s escrow.freelancerId with
              | some w => w
              | none => { newWallet escrow.freelancerId with
                            currency := escrow.currency }
            let escrow1 := { escrow with
              status := .approved,
              approvalRating := (match rating with
                | some r => some r
                | none => escrow.approvalRating),
              approvalFeedback := (match feedback with
                | some f => some f
                | none => escrow.approvalFeedback) }
            let clientWallet1 :=
              match clientWallet.escrowReserves.findIdx?
                  (fun r => r.escrowId == escrowId) with
              | some i => recalculateReservedBalance { clientWallet with
                  escrowReserves := clientWallet.escrowReserves.eraseIdx i }
              | none => clientWallet
            let freelancerWallet1 := { freelancerWallet with
              balance := freelancerWallet.balance + escrow.amount }
            let tx : Transaction :=
              { id := s.nextTxId, userId := escrow.freelancerId,
                amount := escrow.amount, currency := escrow.currency,
                status := .completed, paymentMethodId := "system_transfer",
                type := .payment,
                description := "Payment for completed work: " ++
                  escrow.serviceName,
                reference := some escrow.id }
            let s1 := { s with
              transactions := s.transactions ++ [tx],
              escrows := updateEscrow s.escrows escrowId escrow1,
              wallets := upsertWallet
                (upsertWallet s.wallets (walletSave clientWallet1))
                (walletSave freelancerWallet1),
              nextTxId := s.nextTxId + 1 }
            (s1, none)

/-- POST /:escrowId/reject, real branch: no wallet or ledger mutation. -/
def rejectEscrow (s : Store) (escrowId : Nat) (clientId reason : String) :
    Store × Option ApiError :=
  if clientId = "" ∨ reason = "" then
    (s, some (.validation "Client ID and rejection reason are required"))
  else
  match s.escrows.find? (fun e => e.id == escrowId) with
  | none => (s, some (.notFound "Escrow not found"))
  | some escrow =>
      if escrow.clientId ≠ clientId then
        (s, some (.notAuthorized "Not authorized to reject this escrow"))
      else if escrow.status ≠ .delivered then
        (s, some (.invalidState escrow.status .delivered))
      else
        let escrow1 := { escrow with
          status := .disputed,
          disputeReason := some reason }
        ({ s with escrows := updateEscrow s.escrows escrowId escrow1 }, none)

/-- One request against the ledger core: the operations of the wallet
router and the escrow router. -/
inductive Op where
  | deposit (userId : String) (amount : ℚ) (currency paymentMethodId : String)
  | withdraw (userId : String) (amount : ℚ)
      (currency paymentMethodId : String)
  | addPaymentMethod (userId type name : String) (isDefault : Bool)
  | removePaymentMethod (userId methodId : String)
  | setDefaultPaymentMethod (userId methodId : String)
  | createEscrow (clientId freelancerId : String) (serviceId : Option String)
      (serviceName description : String) (amount : ℚ)
      (currency paymentMethodId : String) (terms : Option String)
  | startEscrow (escrowId : Nat) (freelancerId : String)
  | deliverEscrow (escrowId : Nat) (freelancerId deliveryMessage : String)
      (deliveryFiles : Option (List String))
  | approveEscrow (escrowId : Nat) (clientId : String) (rating : Option Nat)
      (feedback : Option String)
  | rejectEscrow (escrowId : Nat) (clientId reason : String)
deriving DecidableEq

/-- Dispatch one request. -/
def applyOp (s : Store) (op : Op) : Store × Option ApiError :=
  match op with
  | .deposit u a c p => deposit s u a c p
  | .withdraw u a c p => withdraw s u a c p
  | .addPaymentMethod u t n d => addPaymentMethod s u t n d
  | .removePaymentMethod u m => removePaymentMethod s u m
  | .setDefaultPaymentMethod u m => setDefaultPaymentMethod s u m
  | .createEscrow c f sid sn d a cur p t =>
      createEscrow s c f sid sn d a cur p t
  | .startEscrow e f => startEscrow s e f
  | .deliverEscrow e f m fs => deliverEscrow s e f m fs
  | .approveEscrow e c r fb => approveEscrow s e c r fb
  | .rejectEscrow e c r => rejectEscrow s e c r

/-- Run a sequence of requests, keeping the committed store of each. -/
def applyOps (s : Store) (ops : List Op) : Store :=
  ops.foldl (fun t op => (applyOp t op).1) s

/-- The per-wallet ledger invariant of the spec, strengthened with the
nonnegativity of the individual reserve entries (which makes it inductive):
reservedBalance is the reserves sum, every reserve entry is nonnegative,
and reservedBalance does not exceed balance. -/
def WalletInv (w : Wallet) : Prop :=
  w.reservedBalance = reservesSum w.escrowReserves ∧
  (∀ r ∈ w.escrowReserves, 0 ≤ r.amount) ∧
  w.reservedBalance ≤ w.balance

/-- Basic well-formedness of the store: wallet keys are unique, escrow
amounts are positive, and every transaction belongs to a user that has a
wallet. All of it holds along any run from the empty store. -/
def StoreWF (s : Store) : Prop :=
  (s.wallets.map Wallet.userId).Nodup ∧
  (∀ e ∈ s.escrows, 0 < e.amount) ∧
  (∀ t ∈ s.transactions, t.userId ∈ s.wallets.map Wallet.userId)

/-- Every wallet of the store satisfies the ledger invariant. -/
def AllWalletsInv (s : Store) : Prop :=
  ∀ w ∈ s.wallets, WalletInv w

/-- Reconciliation invariant: each wallet balance equals the signed sum of
the transactions recorded for its user. -/
def ReconInv (s : Store) : Prop :=
  ∀ w ∈ s.wallets, w.balance = txSum s.transactions w.userId

/-- The strengthened funding precondition under which an escrow create
preserves the ledger invariant: either the create fails its own funds check,
or the client can afford the reserve on top of the debit. All other
operations preserve the invariant unconditionally. -/
def SafeOp (s : Store) (op : Op) : Prop :=
  match op with
  | .createEscrow clientId _ _ _ _ amount _ _ _ =>
      let w := (getOrCreateWallet s clientId).1
      let availableBalance := w.balance - w.reservedBalance
      let totalAmount := amount + amount * (5 / 100)
      availableBalance < totalAmount ∨
        amount + totalAmount ≤ availableBalance
  | _ => True

/-- Is the handler result a ValidationError body? -/
def isValidationError : Option ApiError → Bool
  | some (.validation _) => true
  | _ => false

/-- The requested field of an insufficient-funds body. -/
def requestedOf : Option ApiError → Option ℚ
  | some (.insufficientFunds _ r) => some r
  | some (.insufficientFundsFee _ r _) => some r
  | _ => none

/-- A store holding one client wallet with balance 1000 and no reserves
(the scenario wallet of the spec). -/
def sClient1000 : Store :=
  { emptyStore with wallets := [{
      userId := "client1", balance := 1000, currency := "TND",
      reservedBalance := 0, escrowReserves := [], paymentMethods := [],
      transactionIds := [] }] }

/-- A store holding one wallet of user u with zero balance and one payment
method pm_1. -/
def sZeroWithPm : Store :=
  { emptyStore with wallets := [{
      userId := "u", balance := 0, currency := "TND", reservedBalance := 0,
      escrowReserves := [],
      paymentMethods := [{
        id := "pm_1", type := "credit_card", name := "Visa",
        isDefault := true }],
      transactionIds := [] }] }

/-- A store holding one client wallet with balance 150 (funded by a single
recorded deposit transaction, so reconciliation holds) and no reserves. -/
def sClient150 : Store :=
  { emptyStore with
    wallets := [{
      userId := "c", balance := 150, currency := "TND", reservedBalance := 0,
      escrowReserves := [],
      paymentMethods := [{
        id := "pm_1", type := "credit_card", name := "Visa",
        isDefault := true }],
      transactionIds := [0] }],
    transactions := [{
      id := 0, userId := "c", amount := 150, currency := "TND",
      status := .completed, paymentMethodId := "pm_1", type := .deposit,
      description := "Wallet deposit", reference := none }],
    nextTxId := 1 }

/-- A store holding one client wallet with balance 50 and no reserves. -/
def sClient50 : Store :=
  { emptyStore with wallets := [{
      userId := "c", balance := 50, currency := "TND", reservedBalance := 0,
      escrowReserves := [], paymentMethods := [], transactionIds := [] }] }

/-- A store holding a delivered escrow (id 0, client c, freelancer f,
amount 100, fee 5) and the client wallet with the matching reserve entry. -/
def sDelivered : Store :=
  { emptyStore with
    wallets := [{
      userId := "c", balance := 895, currency := "TND",
      reservedBalance := 100,
      escrowReserves := [{ escrowId := 0, amount := 100 }],
      paymentMethods := [], transactionIds := [0] }],
    escrows := [{
      id := 0, clientId := "c", freelancerId := "f", serviceId := none,
      serviceName := "Logo", description := "Design", amount := 100,
      currency := "TND", platformFee := 5, paymentMethodId := "pm_1",
      transactionId := some 0, status := .delivered,
      deliveryMessage := some "done", deliveryFiles := [],
      approvalRating := none, approvalFeedback := none,
      disputeReason := none, terms := none }],
    transactions := [{
      id := 0, userId := "c", amount := -105, currency := "TND",
      status := .completed, paymentMethodId := "pm_1", type := .escrow,
      description := "Escrow payment for Logo", reference := some 0 }],
    nextTxId := 1, nextEscrowId := 1 }

/-- Like sDelivered, but the client wallet carries no reserve entry for the
escrow (empty escrowReserves, reservedBalance 0). -/
def sDeliveredNoRes : Store :=
  { sDelivered with
    wallets := [{
      userId := "c", balance := 895, currency := "TND",
      reservedBalance := 0, escrowReserves := [],
      paymentMethods := [], transactionIds := [0] }] }

/-! ### Basic lemmas about the wallet save hook and the store primitives -/

theorem walletSave_userId (w : Wallet) : (walletSave w).userId = w.userId := by
  unfold walletSave recalculateReservedBalance
  split <;> rfl

theorem walletSave_balance (w : Wallet) : (walletSave w).balance = w.balance := by
  unfold walletSave recalculateReservedBalance
  split <;> rfl

theorem walletSave_escrowReserves (w : Wallet) :
    (walletSave w).escrowReserves = w.escrowReserves := by
  unfold walletSave recalculateReservedBalance
  split <;> rfl

theorem walletSave_eq_self {w : Wallet}
    (h : w.reservedBalance = reservesSum w.escrowReserves) : walletSave w = w := by
  unfold walletSave recalculateReservedBalance
  split
  · rw [← h]
  · rfl

theorem reservesSum_nil : reservesSum [] = 0 := rfl

theorem reservesSum_cons (r : Reserve) (rs : List Reserve) :
    reservesSum (r :: rs) = r.amount + reservesSum rs := by
  simp [reservesSum]

theorem reservesSum_append (rs ts : List Reserve) :
    reservesSum (rs ++ ts) = reservesSum rs + reservesSum ts := by
  simp [reservesSum]

theorem reservesSum_nonneg {rs : List Reserve} (h : ∀ r ∈ rs, 0 ≤ r.amount) :
    0 ≤ reservesSum rs := by
  induction rs with
  | nil => simp [reservesSum]
  | cons r rs ih =>
      rw [reservesSum_cons]
      have h1 : 0 ≤ r.amount := h r (List.mem_cons_self r rs)
      have h2 : 0 ≤ reservesSum rs := ih fun x hx => h x (List.mem_cons_of_mem r hx)
      linarith

theorem reservesSum_eraseIdx_le {rs : List Reserve} (i : Nat)
    (h : ∀ r ∈ rs, 0 ≤ r.amount) : reservesSum (rs.eraseIdx i) ≤ reservesSum rs := by
  unfold reservesSum
  refine List.Sublist.sum_le_sum (List.Sublist.map Reserve.amount (List.eraseIdx_sublist rs i)) ?_
  intro a ha
  obtain ⟨r, hr, rfl⟩ := List.mem_map.1 ha
  exact h r hr

theorem mem_of_mem_eraseIdx {rs : List Reserve} {i : Nat} {r : Reserve}
    (h : r ∈ rs.eraseIdx i) : r ∈ rs :=
  (List.eraseIdx_sublist rs i).subset h

theorem txSum_nil (u : String) : txSum [] u = 0 := rfl

theorem txSum_append_tx (ts : List Transaction) (t : Transaction) (u : String) :
    txSum (ts ++ [t]) u = txSum ts u + (if t.userId = u then t.amount else 0) := by
  unfold txSum
  rw [List.filter_append]
  by_cases h : t.userId = u
  · simp [h]
  · simp [h]

theorem txSum_eq_zero {ts : List Transaction} {u : String}
    (h : ∀ t ∈ ts, t.userId ≠ u) : txSum ts u = 0 := by
  unfold txSum
  have : ts.filter (fun t => t.userId == u) = [] := by
    rw [List.filter_eq_nil_iff]
    intro t ht
    simpa using h t ht
  rw [this]
  rfl

theorem findWallet_userId {s : Store} {u : String} {w : Wallet}
    (h : findWallet s u = some w) : w.userId = u := by
  have := List.find?_some h
  simpa using this

theorem findWallet_mem {s : Store} {u : String} {w : Wallet}
    (h : findWallet s u = some w) : w ∈ s.wallets :=
  List.mem_of_find?_eq_some h

theorem findWallet_none {s : Store} {u : String} (h : findWallet s u = none) :
    ∀ w ∈ s.wallets, w.userId ≠ u := by
  intro w hw
  have := List.find?_eq_none.1 h w hw
  simpa using this

theorem upsertWallet_cons (a : Wallet) (as : List Wallet) (w : Wallet) :
    upsertWallet (a :: as) w =
      if a.userId == w.userId then
        w :: as.map (fun x => if x.userId == w.userId then w else x)
      else a :: upsertWallet as w := by
  unfold upsertWallet
  by_cases h : (a.userId == w.userId) = true
  · have hany : ((a :: as).any fun y => y.userId == w.userId) = true := by
      simp [List.any_cons, h]
    rw [if_pos hany, List.map_cons, if_pos h, if_pos h]
  · by_cases h2 : (as.any fun y => y.userId == w.userId) = true
    · have hany : ((a :: as).any fun y => y.userId == w.userId) = true := by
        simp [List.any_cons, h2]
      rw [if_pos hany, if_neg h, if_pos h2, List.map_cons, if_neg h]
    · have hany : ¬ (((a :: as).any fun y => y.userId == w.userId) = true) := by
        simp only [List.any_cons, Bool.or_eq_true, not_or]
        exact ⟨h, h2⟩
      rw [if_neg hany, if_neg h, if_neg h2]
      rfl

theorem mem_upsertWallet {ws : List Wallet} {w x : Wallet}
    (hx : x ∈ upsertWallet ws w) :
    x = w ∨ (x ∈ ws ∧ x.userId ≠ w.userId) := by
  induction ws with
  | nil =>
      unfold upsertWallet at hx
      simp at hx
      exact Or.inl hx
  | cons a as ih =>
      rw [upsertWallet_cons] at hx
      by_cases h : (a.userId == w.userId) = true
      · rw [if_pos h] at hx
        rcases List.mem_cons.1 hx with rfl | hx2
        · exact Or.inl rfl
        · obtain ⟨y, hy, hxy⟩ := List.mem_map.1 hx2
          by_cases hyw : (y.userId == w.userId) = true
          · rw [if_pos hyw] at hxy
            exact Or.inl hxy.symm
          · rw [if_neg hyw] at hxy
            subst hxy
            exact Or.inr ⟨List.mem_cons_of_mem a hy, by simpa using hyw⟩
      · rw [if_neg h] at hx
        rcases List.mem_cons.1 hx with rfl | hx2
        · exact Or.inr ⟨List.mem_cons_self x as, by simpa using h⟩
        · rcases ih hx2 with h1 | ⟨h2, h3⟩
          · exact Or.inl h1
          · exact Or.inr ⟨List.mem_cons_of_mem a h2, h3⟩

theorem map_userId_upsertWallet (ws : List Wallet) (w : Wallet) :
    (upsertWallet ws w).map Wallet.userId =
      if ws.any (fun x => x.userId == w.userId) then ws.map Wallet.userId
      else ws.map Wallet.userId ++ [w.userId] := by
  unfold upsertWallet
  by_cases h : (ws.any fun x => x.userId == w.userId) = true
  · rw [if_pos h, if_pos h, List.map_map]
    refine List.map_congr_left ?_
    intro x _
    by_cases hx : (x.userId == w.userId) = true
    · have hx2 : x.userId = w.userId := by simpa using hx
      simp only [Function.comp]
      rw [if_pos hx, hx2]
    · simp only [Function.comp]
      rw [if_neg hx]
  · rw [if_neg h, if_neg h]
    simp

theorem find?_upsertWallet_self (ws : List Wallet) (w : Wallet) :
    (upsertWallet ws w).find? (fun x => x.userId == w.userId) = some w := by
  induction ws with
  | nil =>
      unfold upsertWallet
      simp
  | cons a as ih =>
      rw [upsertWallet_cons]
      by_cases h : (a.userId == w.userId) = true
      · rw [if_pos h]
        simp [List.find?_cons]
      · rw [if_neg h]
        have hb : (a.userId == w.userId) = false := by simpa using h
        simp only [List.find?_cons, hb]
        exact ih

theorem find?_map_replace (as : List Wallet) (w : Wallet) {u : String}
    (hu : w.userId ≠ u) :
    (as.map (fun x => if x.userId == w.userId then w else x)).find?
        (fun x => x.userId == u) = as.find? (fun x => x.userId == u) := by
  have hwu : (w.userId == u) = false := by simpa using hu
  induction as with
  | nil => rfl
  | cons a as ih =>
      rw [List.map_cons]
      by_cases h : (a.userId == w.userId) = true
      · have ha : a.userId = w.userId := by simpa using h
        have hau : (a.userId == u) = false := by
          simp only [ha]
          exact hwu
        rw [if_pos h]
        simp only [List.find?_cons, hwu, hau]
        exact ih
      · rw [if_neg h]
        by_cases h2 : (a.userId == u) = true
        · simp only [List.find?_cons, h2]
        · have hb : (a.userId == u) = false := by simpa using h2
          simp only [List.find?_cons, hb]
          exact ih

theorem find?_upsertWallet_ne (ws : List Wallet) (w : Wallet) {u : String}
    (hu : w.userId ≠ u) :
    (upsertWallet ws w).find? (fun x => x.userId == u) =
      ws.find? (fun x => x.userId == u) := by
  unfold upsertWallet
  by_cases h : (ws.any fun x => x.userId == w.userId) = true
  · rw [if_pos h]
    exact find?_map_replace ws w hu
  · rw [if_neg h, List.find?_append]
    have hwu : (w.userId == u) = false := by simpa using hu
    have hnone : List.find? (fun x => x.userId == u) [w] = none := by
      simp [List.find?_cons, hwu]
    rw [hnone]
    cases ws.find? (fun x => x.userId == u) <;> rfl

/-! ### Lemmas about the lazy wallet creation of the middleware -/

theorem walletSave_newWallet (u : String) : walletSave (newWallet u) = newWallet u := rfl

theorem getOrCreateWallet_userId (s : Store) (u : String) :
    (getOrCreateWallet s u).1.userId = u := by
  unfold getOrCreateWallet
  cases h : findWallet s u with
  | some w => exact findWallet_userId h
  | none => rfl

theorem getOrCreateWallet_transactions (s : Store) (u : String) :
    (getOrCreateWallet s u).2.transactions = s.transactions := by
  unfold getOrCreateWallet
  cases h : findWallet s u <;> rfl

theorem getOrCreateWallet_escrows (s : Store) (u : String) :
    (getOrCreateWallet s u).2.escrows = s.escrows := by
  unfold getOrCreateWallet
  cases h : findWallet s u <;> rfl

theorem getOrCreateWallet_nextTxId (s : Store) (u : String) :
    (getOrCreateWallet s u).2.nextTxId = s.nextTxId := by
  unfold getOrCreateWallet
  cases h : findWallet s u <;> rfl

theorem getOrCreateWallet_nextEscrowId (s : Store) (u : String) :
    (getOrCreateWallet s u).2.nextEscrowId = s.nextEscrowId := by
  unfold getOrCreateWallet
  cases h : findWallet s u <;> rfl

theorem getOrCreateWallet_findWallet (s : Store) (u : String) :
    findWallet (getOrCreateWallet s u).2 u = some (getOrCreateWallet s u).1 := by
  unfold getOrCreateWallet
  cases h : findWallet s u with
  | some w => exact h
  | none =>
      show (s.wallets ++ [walletSave (newWallet u)]).find?
          (fun x => x.userId == u) = some (walletSave (newWallet u))
      rw [List.find?_append]
      unfold findWallet at h
      rw [h]
      rw [walletSave_newWallet]
      simp [List.find?_cons, newWallet]

theorem getOrCreateWallet_mem (s : Store) (u : String) :
    (getOrCreateWallet s u).1 ∈ (getOrCreateWallet s u).2.wallets :=
  findWallet_mem (getOrCreateWallet_findWallet s u)

theorem findWallet_getOrCreateWallet_other (s : Store) (u v : String)
    (hv : v ≠ u) :
    findWallet (getOrCreateWallet s u).2 v = findWallet s v := by
  unfold getOrCreateWallet
  cases h : findWallet s u with
  | some w => rfl
  | none =>
      show (s.wallets ++ [walletSave (newWallet u)]).find?
          (fun x => x.userId == v) = findWallet s v
      rw [List.find?_append]
      rw [walletSave_newWallet]
      have hnone : List.find? (fun x => x.userId == v) [newWallet u] = none := by
        have : ((newWallet u).userId == v) = false := by
          simp [newWallet]
          exact fun hc => hv hc.symm
        simp [List.find?_cons, this]
      rw [hnone]
      unfold findWallet
      cases s.wallets.find? (fun x => x.userId == v) <;> rfl

theorem balanceOf_getOrCreateWallet (s : Store) (u v : String) :
    balanceOf (getOrCreateWallet s u).2 v = balanceOf s v := by
  by_cases hv : v = u
  · subst hv
    unfold balanceOf
    rw [getOrCreateWallet_findWallet]
    unfold getOrCreateWallet
    cases h : findWallet s v with
    | some w => rfl
    | none => rfl
  · unfold balanceOf
    rw [findWallet_getOrCreateWallet_other s u v hv]

theorem walletInv_newWallet (u : String) : WalletInv (newWallet u) := by
  refine ⟨rfl, ?_, le_refl 0⟩
  intro r hr
  simp [newWallet] at hr

theorem getOrCreateWallet_balance_txSum (s : Store) (u : String)
    (hwf : StoreWF s) (hrec : ReconInv s) :
    (getOrCreateWallet s u).1.balance = txSum s.transactions
      (getOrCreateWallet s u).1.userId := by
  unfold getOrCreateWallet
  cases h : findWallet s u with
  | some w => exact hrec w (findWallet_mem h)
  | none =>
      show (walletSave (newWallet u)).balance =
        txSum s.transactions (walletSave (newWallet u)).userId
      rw [walletSave_newWallet]
      have : txSum s.transactions u = 0 := by
        apply txSum_eq_zero
        intro t ht hnu
        have hmem := hwf.2.2 t ht
        rw [hnu] at hmem
        obtain ⟨x, hx, hxu⟩ := List.mem_map.1 hmem
        exact findWallet_none h x hx hxu
      show (0 : ℚ) = txSum s.transactions u
      rw [this]

theorem getOrCreateWallet_WF (s : Store) (u : String) (hwf : StoreWF s) :
    StoreWF (getOrCreateWallet s u).2 := by
  unfold getOrCreateWallet
  cases h : findWallet s u with
  | some w => exact hwf
  | none =>
      refine ⟨?_, ?_, ?_⟩
      · show ((s.wallets ++ [walletSave (newWallet u)]).map Wallet.userId).Nodup
        rw [List.map_append, List.nodup_append]
        refine ⟨hwf.1, by simp, ?_⟩
        intro v hv hv2
        rw [walletSave_newWallet] at hv2
        simp [newWallet] at hv2
        subst hv2
        obtain ⟨x, hx, hxu⟩ := List.mem_map.1 hv
        exact findWallet_none h x hx hxu
      · exact hwf.2.1
      · intro t ht
        show t.userId ∈ (s.wallets ++ [walletSave (newWallet u)]).map Wallet.userId
        rw [List.map_append]
        exact List.mem_append_left _ (hwf.2.2 t ht)

theorem getOrCreateWallet_inv (s : Store) (u : String)
    (hinv : AllWalletsInv s) :
    AllWalletsInv (getOrCreateWallet s u).2 ∧
      WalletInv (getOrCreateWallet s u).1 := by
  unfold getOrCreateWallet
  cases h : findWallet s u with
  | some w => exact ⟨hinv, hinv w (findWallet_mem h)⟩
  | none =>
      constructor
      · intro x hx
        have hx2 : x ∈ s.wallets ++ [walletSave (newWallet u)] := hx
        rcases List.mem_append.1 hx2 with hx3 | hx3
        · exact hinv x hx3
        · have : x = walletSave (newWallet u) := by simpa using hx3
          rw [this, walletSave_newWallet]
          exact walletInv_newWallet u
      · show WalletInv (walletSave (newWallet u))
        rw [walletSave_newWallet]
        exact walletInv_newWallet u

theorem getOrCreateWallet_recon (s : Store) (u : String) (hwf : StoreWF s)
    (hrec : ReconInv s) : ReconInv (getOrCreateWallet s u).2 := by
  unfold getOrCreateWallet
  cases h : findWallet s u with
  | some w => exact hrec
  | none =>
      intro x hx
      have hx2 : x ∈ s.wallets ++ [walletSave (newWallet u)] := hx
      rcases List.mem_append.1 hx2 with hx3 | hx3
      · exact hrec x hx3
      · have hx4 : x = walletSave (newWallet u) := by simpa using hx3
        rw [hx4, walletSave_newWallet]
        show (0 : ℚ) = txSum s.transactions (newWallet u).userId
        have : txSum s.transactions u = 0 := by
          apply txSum_eq_zero
          intro t ht hnu
          have hmem := hwf.2.2 t ht
          rw [hnu] at hmem
          obtain ⟨y, hy, hyu⟩ := List.mem_map.1 hmem
          exact findWallet_none h y hy hyu
        show (0 : ℚ) = txSum s.transactions u
        rw [this]

theorem upsert_any_of_findWallet {s1 : Store} {u : String} {w W : Wallet}
    (h : findWallet s1 u = some w) (hW : W.userId = u) :
    (s1.wallets.any fun x => x.userId == W.userId) = true := by
  rw [List.any_eq_true]
  refine ⟨w, findWallet_mem h, ?_⟩
  rw [hW, findWallet_userId h]
  simp

theorem map_userId_upsert_of_mem {ws : List Wallet} {w1 : Wallet}
    (hany : (ws.any fun x => x.userId == w1.userId) = true) :
    (upsertWallet ws w1).map Wallet.userId = ws.map Wallet.userId := by
  rw [map_userId_upsertWallet, if_pos hany]

theorem uid_mem_of_findWallet {s1 : Store} {u : String} {w : Wallet}
    (h : findWallet s1 u = some w) : u ∈ s1.wallets.map Wallet.userId := by
  rw [List.mem_map]
  exact ⟨w, findWallet_mem h, findWallet_userId h⟩

theorem recon_upsert_append {ws : List Wallet} {ts : List Transaction}
    {w1 : Wallet} {tx : Transaction}
    (hrec : ∀ x ∈ ws, x.balance = txSum ts x.userId)
    (htuid : tx.userId = w1.userId)
    (hbal : w1.balance = txSum ts w1.userId + tx.amount) :
    ∀ x ∈ upsertWallet ws (walletSave w1),
      x.balance = txSum (ts ++ [tx]) x.userId := by
  intro x hx
  rcases mem_upsertWallet hx with rfl | ⟨hmem, hne⟩
  · rw [walletSave_balance, walletSave_userId, txSum_append_tx,
      if_pos htuid, ← hbal]
  · rw [walletSave_userId] at hne
    have hne2 : ¬ (tx.userId = x.userId) := by
      rw [htuid]
      exact fun hh => hne hh.symm
    rw [txSum_append_tx, if_neg hne2, add_zero]
    exact hrec x hmem

theorem inv_upsertWallet {ws : List Wallet} {w1 : Wallet}
    (hinv : ∀ x ∈ ws, WalletInv x) (h1 : WalletInv w1) :
    ∀ x ∈ upsertWallet ws (walletSave w1), WalletInv x := by
  rw [walletSave_eq_self h1.1]
  intro x hx
  rcases mem_upsertWallet hx with rfl | ⟨hmem, _⟩
  · exact h1
  · exact hinv x hmem

theorem txmem_upsert_append {ws : List Wallet} {ts : List Transaction}
    {W : Wallet} {tx : Transaction}
    (hany : (ws.any fun x => x.userId == W.userId) = true)
    (hts : ∀ t ∈ ts, t.userId ∈ ws.map Wallet.userId)
    (htx : tx.userId ∈ ws.map Wallet.userId) :
    ∀ t ∈ ts ++ [tx], t.userId ∈ (upsertWallet ws W).map Wallet.userId := by
  rw [map_userId_upsert_of_mem hany]
  intro t ht
  rcases List.mem_append.1 ht with h1 | h1
  · exact hts t h1
  · have : t = tx := by simpa using h1
    rw [this]
    exact htx

/-! ### Step preservation of the invariants, one lemma per operation -/

theorem deposit_step (s : Store) (u : String) (a : ℚ) (c p : String)
    (hwf : StoreWF s) (hrec : ReconInv s) :
    StoreWF (deposit s u a c p).1 ∧ ReconInv (deposit s u a c p).1 ∧
      (AllWalletsInv s → AllWalletsInv (deposit s u a c p).1) := by
  by_cases hu : u = ""
  · simp only [deposit, if_pos hu]
    exact ⟨hwf, hrec, fun h => h⟩
  · have hwf1 := getOrCreateWallet_WF s u hwf
    have hrec1 := getOrCreateWallet_recon s u hwf hrec
    have hinv1 := fun hinv => (getOrCreateWallet_inv s u hinv).1
    simp only [deposit, if_neg hu]
    by_cases ha : a ≤ 0
    · simp only [if_pos ha]
      exact ⟨hwf1, hrec1, hinv1⟩
    · simp only [if_neg ha]
      by_cases hp : p = ""
      · simp only [if_pos hp]
        exact ⟨hwf1, hrec1, hinv1⟩
      · simp only [if_neg hp]
        cases hpm : (getOrCreateWallet s u).1.paymentMethods.find?
            (fun m => m.id == p) with
        | none =>
            simp only [hpm]
            exact ⟨hwf1, hrec1, hinv1⟩
        | some m =>
            simp only [hpm]
            have hfind := getOrCreateWallet_findWallet s u
            have huid := getOrCreateWallet_userId s u
            have hany : ((getOrCreateWallet s u).2.wallets.any fun x =>
                x.userId == (walletSave { (getOrCreateWallet s u).1 with
                  balance := (getOrCreateWallet s u).1.balance + a,
                  transactionIds := (getOrCreateWallet s u).1.transactionIds ++
                    [(getOrCreateWallet s u).2.nextTxId] }).userId) = true := by
              apply upsert_any_of_findWallet hfind
              rw [walletSave_userId]
              exact huid
            refine ⟨⟨?_, ?_, ?_⟩, ?_, ?_⟩
            · show ((upsertWallet _ _).map Wallet.userId).Nodup
              rw [map_userId_upsert_of_mem hany]
              exact hwf1.1
            · exact hwf1.2.1
            · show ∀ t ∈ (getOrCreateWallet s u).2.transactions ++ [_],
                t.userId ∈ (upsertWallet _ _).map Wallet.userId
              apply txmem_upsert_append hany hwf1.2.2
              show u ∈ _
              exact uid_mem_of_findWallet hfind
            · show ∀ x ∈ upsertWallet _ _, x.balance = txSum (_ ++ [_]) x.userId
              apply recon_upsert_append hrec1
              · exact huid.symm
              · show (getOrCreateWallet s u).1.balance + a =
                  txSum (getOrCreateWallet s u).2.transactions
                    (getOrCreateWallet s u).1.userId + a
                rw [getOrCreateWallet_transactions,
                  getOrCreateWallet_balance_txSum s u hwf hrec]
            · intro hinv
              have h1 := (getOrCreateWallet_inv s u hinv).2
              intro x hx
              refine inv_upsertWallet (hinv1 hinv) ?_ x hx
              refine ⟨h1.1, h1.2.1, ?_⟩
              show (getOrCreateWallet s u).1.reservedBalance ≤
                (getOrCreateWallet s u).1.balance + a
              have := h1.2.2
              linarith [lt_of_not_le ha]

theorem withdraw_step (s : Store) (u : String) (a : ℚ) (c p : String)
    (hwf : StoreWF s) (hrec : ReconInv s) :
    StoreWF (withdraw s u a c p).1 ∧ ReconInv (withdraw s u a c p).1 ∧
      (AllWalletsInv s → AllWalletsInv (withdraw s u a c p).1) := by
  by_cases hu : u = ""
  · simp only [withdraw, if_pos hu]
    exact ⟨hwf, hrec, fun h => h⟩
  · have hwf1 := getOrCreateWallet_WF s u hwf
    have hrec1 := getOrCreateWallet_recon s u hwf hrec
    have hinv1 := fun hinv => (getOrCreateWallet_inv s u hinv).1
    simp only [withdraw, if_neg hu]
    by_cases ha : a ≤ 0
    · simp only [if_pos ha]
      exact ⟨hwf1, hrec1, hinv1⟩
    · simp only [if_neg ha]
      by_cases hp : p = ""
      · simp only [if_pos hp]
        exact ⟨hwf1, hrec1, hinv1⟩
      · simp only [if_neg hp]
        by_cases hav : a > (getOrCreateWallet s u).1.balance -
            (getOrCreateWallet s u).1.reservedBalance
        · simp only [if_pos hav]
          exact ⟨hwf1, hrec1, hinv1⟩
        · simp only [if_neg hav]
          cases hpm : (getOrCreateWallet s u).1.paymentMethods.find?
              (fun m => m.id == p) with
          | none =>
              simp only [hpm]
              exact ⟨hwf1, hrec1, hinv1⟩
          | some m =>
              simp only [hpm]
              have hfind := getOrCreateWallet_findWallet s u
              have huid := getOrCreateWallet_userId s u
              have hany : ((getOrCreateWallet s u).2.wallets.any fun x =>
                  x.userId == (walletSave { (getOrCreateWallet s u).1 with
                    balance := (getOrCreateWallet s u).1.balance - a,
                    transactionIds := (getOrCreateWallet s u).1.transactionIds
                      ++ [(getOrCreateWallet s u).2.nextTxId] }).userId)
                  = true := by
                apply upsert_any_of_findWallet hfind
                rw [walletSave_userId]
                exact huid
              refine ⟨⟨?_, ?_, ?_⟩, ?_, ?_⟩
              · show ((upsertWallet _ _).map Wallet.userId).Nodup
                rw [map_userId_upsert_of_mem hany]
                exact hwf1.1
              · exact hwf1.2.1
              · show ∀ t ∈ (getOrCreateWallet s u).2.transactions ++ [_],
                  t.userId ∈ (upsertWallet _ _).map Wallet.userId
                apply txmem_upsert_append hany hwf1.2.2
                show u ∈ _
                exact uid_mem_of_findWallet hfind
              · show ∀ x ∈ upsertWallet _ _,
                  x.balance = txSum (_ ++ [_]) x.userId
                apply recon_upsert_append hrec1
                · exact huid.symm
                · show (getOrCreateWallet s u).1.balance - a =
                    txSum (getOrCreateWallet s u).2.transactions
                      (getOrCreateWallet s u).1.userId + -a
                  rw [getOrCreateWallet_transactions,
                    getOrCreateWallet_balance_txSum s u hwf hrec]
                  ring
              · intro hinv
                have h1 := (getOrCreateWallet_inv s u hinv).2
                intro x hx
                refine inv_upsertWallet (hinv1 hinv) ?_ x hx
                refine ⟨h1.1, h1.2.1, ?_⟩
                show (getOrCreateWallet s u).1.reservedBalance ≤
                  (getOrCreateWallet s u).1.balance - a
                have hav2 := le_of_not_lt hav
                linarith

theorem recon_upsert_same {ws : List Wallet} {ts : List Transaction}
    {w1 : Wallet} (hrec : ∀ x ∈ ws, x.balance = txSum ts x.userId)
    (hbal : w1.balance = txSum ts w1.userId) :
    ∀ x ∈ upsertWallet ws (walletSave w1), x.balance = txSum ts x.userId := by
  intro x hx
  rcases mem_upsertWallet hx with rfl | ⟨hmem, _⟩
  · rw [walletSave_balance, walletSave_userId]
    exact hbal
  · exact hrec x hmem

theorem pm_update_step (s : Store) (u : String) (ms : List PaymentMethod)
    (hwf : StoreWF s) (hrec : ReconInv s)
    (hfound : (findWallet s u).isSome) :
    let w := (getOrCreateWallet s u).1
    let w1 := { w with paymentMethods := ms }
    StoreWF { s with wallets := upsertWallet s.wallets (walletSave w1) } ∧
    ReconInv { s with wallets := upsertWallet s.wallets (walletSave w1) } ∧
    (AllWalletsInv s →
      AllWalletsInv { s with wallets := upsertWallet s.wallets (walletSave w1) }) := by
  intro w w1
  obtain ⟨w0, hw0⟩ := Option.isSome_iff_exists.1 hfound
  have hs2 : (getOrCreateWallet s u).2 = s := by
    unfold getOrCreateWallet
    rw [hw0]
  have hw : w = w0 := by
    show (getOrCreateWallet s u).1 = w0
    unfold getOrCreateWallet
    rw [hw0]
  have huid : w1.userId = u := by
    show w.userId = u
    rw [hw]
    exact findWallet_userId hw0
  have hany : (s.wallets.any fun x => x.userId == (walletSave w1).userId)
      = true := by
    apply upsert_any_of_findWallet hw0
    rw [walletSave_userId]
    exact huid
  refine ⟨⟨?_, hwf.2.1, ?_⟩, ?_, ?_⟩
  · show ((upsertWallet s.wallets (walletSave w1)).map Wallet.userId).Nodup
    rw [map_userId_upsert_of_mem hany]
    exact hwf.1
  · intro t ht
    show t.userId ∈ (upsertWallet s.wallets (walletSave w1)).map Wallet.userId
    rw [map_userId_upsert_of_mem hany]
    exact hwf.2.2 t ht
  · show ∀ x ∈ upsertWallet s.wallets (walletSave w1),
      x.balance = txSum s.transactions x.userId
    apply recon_upsert_same hrec
    show w.balance = txSum s.transactions w.userId
    rw [hw]
    exact hrec w0 (findWallet_mem hw0)
  · intro hinv
    intro x hx
    refine inv_upsertWallet hinv ?_ x hx
    show WalletInv w1
    have h0 : WalletInv w := by
      rw [hw]
      exact hinv w0 (findWallet_mem hw0)
    exact h0

theorem addPaymentMethod_step (s : Store) (u t n : String) (d : Bool)
    (hwf : StoreWF s) (hrec : ReconInv s) :
    StoreWF (addPaymentMethod s u t n d).1 ∧
    ReconInv (addPaymentMethod s u t n d).1 ∧
    (AllWalletsInv s → AllWalletsInv (addPaymentMethod s u t n d).1) := by
  by_cases hu : u = ""
  · simp only [addPaymentMethod, if_pos hu]
    exact ⟨hwf, hrec, fun h => h⟩
  · have hwf1 := getOrCreateWallet_WF s u hwf
    have hrec1 := getOrCreateWallet_recon s u hwf hrec
    have hinv1 := fun hinv => (getOrCreateWallet_inv s u hinv).1
    simp only [addPaymentMethod, if_neg hu]
    by_cases ht : t = ""
    · simp only [if_pos ht]
      exact ⟨hwf1, hrec1, hinv1⟩
    · simp only [if_neg ht]
      have hcore := pm_update_step (getOrCreateWallet s u).2 u
        ((if (d || (getOrCreateWallet s u).1.paymentMethods.length == 0) then
            (getOrCreateWallet s u).1.paymentMethods.map
              (fun m => { m with isDefault := false })
          else (getOrCreateWallet s u).1.paymentMethods) ++
          [{ id := "pm_" ++ toString (getOrCreateWallet s u).2.nextPmId,
             type := t, name := if n = "" then t else n,
             isDefault := d || (getOrCreateWallet s u).1.paymentMethods.length == 0 }])
        hwf1 hrec1 (by rw [getOrCreateWallet_findWallet]; rfl)
      have hgen : ∀ (s2 : Store) (w0 : Wallet), findWallet s2 u = some w0 →
          (getOrCreateWallet s2 u).1 = w0 := by
        intro s2 w0 h
        unfold getOrCreateWallet
        rw [h]
      rw [hgen _ _ (getOrCreateWallet_findWallet s u)] at hcore
      exact ⟨hcore.1, hcore.2.1, fun hinv => hcore.2.2 (hinv1 hinv)⟩

theorem removePaymentMethod_step (s : Store) (u m : String)
    (hwf : StoreWF s) (hrec : ReconInv s) :
    StoreWF (removePaymentMethod s u m).1 ∧
    ReconInv (removePaymentMethod s u m).1 ∧
    (AllWalletsInv s → AllWalletsInv (removePaymentMethod s u m).1) := by
  by_cases hu : u = ""
  · simp only [removePaymentMethod, if_pos hu]
    exact ⟨hwf, hrec, fun h => h⟩
  · have hwf1 := getOrCreateWallet_WF s u hwf
    have hrec1 := getOrCreateWallet_recon s u hwf hrec
    have hinv1 := fun hinv => (getOrCreateWallet_inv s u hinv).1
    simp only [removePaymentMethod, if_neg hu]
    cases hidx : (getOrCreateWallet s u).1.paymentMethods.findIdx?
        (fun x => x.id == m) with
    | none =>
        simp only [hidx]
        exact ⟨hwf1, hrec1, hinv1⟩
    | some methodIndex =>
        simp only [hidx]
        cases hget : (getOrCreateWallet s u).1.paymentMethods.get? methodIndex with
        | none =>
            simp only [hget]
            exact ⟨hwf1, hrec1, hinv1⟩
        | some pm =>
            simp only [hget]
            by_cases honly : (pm.isDefault &&
                (getOrCreateWallet s u).1.paymentMethods.length == 1) = true
            · simp only [if_pos honly]
              exact ⟨hwf1, hrec1, hinv1⟩
            · simp only [if_neg honly]
              have hcore := pm_update_step (getOrCreateWallet s u).2 u
                ((if (pm.isDefault &&
                      (getOrCreateWallet s u).1.paymentMethods.length > 1) then
                    promoteFirstOther (getOrCreateWallet s u).1.paymentMethods m
                  else (getOrCreateWallet s u).1.paymentMethods).eraseIdx
                    methodIndex)
                hwf1 hrec1 (by rw [getOrCreateWallet_findWallet]; rfl)
              have hgen : ∀ (s2 : Store) (w0 : Wallet),
                  findWallet s2 u = some w0 →
                  (getOrCreateWallet s2 u).1 = w0 := by
                intro s2 w0 h
                unfold getOrCreateWallet
                rw [h]
              rw [hgen _ _ (getOrCreateWallet_findWallet s u)] at hcore
              exact ⟨hcore.1, hcore.2.1, fun hinv => hcore.2.2 (hinv1 hinv)⟩

theorem setDefaultPaymentMethod_step (s : Store) (u m : String)
    (hwf : StoreWF s) (hrec : ReconInv s) :
    StoreWF (setDefaultPaymentMethod s u m).1 ∧
    ReconInv (setDefaultPaymentMethod s u m).1 ∧
    (AllWalletsInv s → AllWalletsInv (setDefaultPaymentMethod s u m).1) := by
  by_cases hu : u = ""
  · simp only [setDefaultPaymentMethod, if_pos hu]
    exact ⟨hwf, hrec, fun h => h⟩
  · have hwf1 := getOrCreateWallet_WF s u hwf
    have hrec1 := getOrCreateWallet_recon s u hwf hrec
    have hinv1 := fun hinv => (getOrCreateWallet_inv s u hinv).1
    simp only [setDefaultPaymentMethod, if_neg hu]
    by_cases hex : ((getOrCreateWallet s u).1.paymentMethods.any
        (fun x => x.id == m)) = true
    · simp only [if_pos hex]
      have hcore := pm_update_step (getOrCreateWallet s u).2 u
        ((getOrCreateWallet s u).1.paymentMethods.map
          (fun x => { x with isDefault := x.id == m }))
        hwf1 hrec1 (by rw [getOrCreateWallet_findWallet]; rfl)
      have hgen : ∀ (s2 : Store) (w0 : Wallet),
          findWallet s2 u = some w0 → (getOrCreateWallet s2 u).1 = w0 := by
        intro s2 w0 h
        unfold getOrCreateWallet
        rw [h]
      rw [hgen _ _ (getOrCreateWallet_findWallet s u)] at hcore
      exact ⟨hcore.1, hcore.2.1, fun hinv => hcore.2.2 (hinv1 hinv)⟩
    · simp only [if_neg hex]
      exact ⟨hwf1, hrec1, hinv1⟩

theorem createEscrow_step (s : Store) (cid fid : String) (sid : Option String)
    (sn d : String) (a : ℚ) (cur p : String) (tm : Option String)
    (hwf : StoreWF s) (hrec : ReconInv s) :
    StoreWF (createEscrow s cid fid sid sn d a cur p tm).1 ∧
    ReconInv (createEscrow s cid fid sid sn d a cur p tm).1 ∧
    (AllWalletsInv s →
      ((getOrCreateWallet s cid).1.balance -
          (getOrCreateWallet s cid).1.reservedBalance < a + a * (5 / 100) ∨
        a + (a + a * (5 / 100)) ≤ (getOrCreateWallet s cid).1.balance -
          (getOrCreateWallet s cid).1.reservedBalance) →
      AllWalletsInv (createEscrow s cid fid sid sn d a cur p tm).1) := by
  by_cases hval : cid = "" ∨ fid = "" ∨ sn = "" ∨ d = "" ∨ a = 0 ∨ p = ""
  · simp only [createEscrow, if_pos hval]
    exact ⟨hwf, hrec, fun h _ => h⟩
  · simp only [createEscrow, if_neg hval]
    by_cases ha : a ≤ 0
    · simp only [if_pos ha]
      exact ⟨hwf, hrec, fun h _ => h⟩
    · simp only [if_neg ha]
      have hwf1 := getOrCreateWallet_WF s cid hwf
      have hrec1 := getOrCreateWallet_recon s cid hwf hrec
      have hinv1 := fun hinv => (getOrCreateWallet_inv s cid hinv).1
      by_cases hav : a > (getOrCreateWallet s cid).1.balance -
          (getOrCreateWallet s cid).1.reservedBalance
      · simp only [if_pos hav]
        exact ⟨hwf1, hrec1, fun hinv _ => hinv1 hinv⟩
      · simp only [if_neg hav]
        by_cases htot : a + a * (5 / 100) >
            (getOrCreateWallet s cid).1.balance -
              (getOrCreateWallet s cid).1.reservedBalance
        · simp only [if_pos htot]
          exact ⟨hwf1, hrec1, fun hinv _ => hinv1 hinv⟩
        · simp only [if_neg htot]
          have hfind := getOrCreateWallet_findWallet s cid
          have huid := getOrCreateWallet_userId s cid
          have hany : ((getOrCreateWallet s cid).2.wallets.any fun x =>
              x.userId == (walletSave { (getOrCreateWallet s cid).1 with
                balance := (getOrCreateWallet s cid).1.balance -
                  (a + a * (5 / 100)),
                reservedBalance :=
                  (getOrCreateWallet s cid).1.reservedBalance + a,
                escrowReserves := (getOrCreateWallet s cid).1.escrowReserves ++
                  [{ escrowId := (getOrCreateWallet s cid).2.nextEscrowId,
                     amount := a }],
                transactionIds := (getOrCreateWallet s cid).1.transactionIds ++
                  [(getOrCreateWallet s cid).2.nextTxId] }).userId) = true := by
            apply upsert_any_of_findWallet hfind
            rw [walletSave_userId]
            exact huid
          refine ⟨⟨?_, ?_, ?_⟩, ?_, ?_⟩
          · show ((upsertWallet _ _).map Wallet.userId).Nodup
            rw [map_userId_upsert_of_mem hany]
            exact hwf1.1
          · intro e he
            rcases List.mem_append.1 he with h1 | h1
            · exact hwf1.2.1 e h1
            · rw [List.mem_singleton] at h1
              rw [h1]
              show (0 : ℚ) < a
              exact lt_of_not_le ha
          · show ∀ t ∈ (getOrCreateWallet s cid).2.transactions ++ [_],
              t.userId ∈ (upsertWallet _ _).map Wallet.userId
            apply txmem_upsert_append hany hwf1.2.2
            show cid ∈ _
            exact uid_mem_of_findWallet hfind
          · show ∀ x ∈ upsertWallet _ _, x.balance = txSum (_ ++ [_]) x.userId
            apply recon_upsert_append hrec1
            · exact huid.symm
            · show (getOrCreateWallet s cid).1.balance - (a + a * (5 / 100)) =
                txSum (getOrCreateWallet s cid).2.transactions
                  (getOrCreateWallet s cid).1.userId + -(a + a * (5 / 100))
              have := hrec1 (getOrCreateWallet s cid).1
                (findWallet_mem hfind)
              rw [← this]
              ring
          · intro hinv hsafe
            have h1 := (getOrCreateWallet_inv s cid hinv).2
            have hsafe2 : a + (a + a * (5 / 100)) ≤
                (getOrCreateWallet s cid).1.balance -
                  (getOrCreateWallet s cid).1.reservedBalance := by
              rcases hsafe with h2 | h2
              · exact absurd h2 (not_lt.2 (le_of_not_lt htot))
              · exact h2
            intro x hx
            refine inv_upsertWallet (hinv1 hinv) ?_ x hx
            refine ⟨?_, ?_, ?_⟩
            · show (getOrCreateWallet s cid).1.reservedBalance + a =
                reservesSum ((getOrCreateWallet s cid).1.escrowReserves ++
                  [{ escrowId := (getOrCreateWallet s cid).2.nextEscrowId,
                     amount := a }])
              rw [reservesSum_append, h1.1]
              show _ = _ + reservesSum [_]
              rw [reservesSum_cons, reservesSum_nil]
              show _ = _ + (a + 0)
              ring
            · intro r hr
              rcases List.mem_append.1 hr with h2 | h2
              · exact h1.2.1 r h2
              · rw [List.mem_singleton] at h2
                rw [h2]
                show (0 : ℚ) ≤ a
                exact le_of_lt (lt_of_not_le ha)
            · show (getOrCreateWallet s cid).1.reservedBalance + a ≤
                (getOrCreateWallet s cid).1.balance - (a + a * (5 / 100))
              linarith

theorem mem_updateEscrow {es : List Escrow} {eid : Nat} {e1 x : Escrow}
    (hx : x ∈ updateEscrow es eid e1) : x = e1 ∨ x ∈ es := by
  unfold updateEscrow at hx
  obtain ⟨y, hy, hxy⟩ := List.mem_map.1 hx
  by_cases h : (y.id == eid) = true
  · rw [if_pos h] at hxy
    exact Or.inl hxy.symm
  · rw [if_neg h] at hxy
    subst hxy
    exact Or.inr hy

theorem escrow_update_step (s : Store) (eid : Nat) (e1 : Escrow)
    (hwf : StoreWF s) (hrec : ReconInv s) (ha : 0 < e1.amount) :
    StoreWF { s with escrows := updateEscrow s.escrows eid e1 } ∧
    ReconInv { s with escrows := updateEscrow s.escrows eid e1 } ∧
    (AllWalletsInv s →
      AllWalletsInv { s with escrows := updateEscrow s.escrows eid e1 }) := by
  refine ⟨⟨hwf.1, ?_, hwf.2.2⟩, hrec, fun h => h⟩
  intro e he
  rcases mem_updateEscrow he with rfl | h1
  · exact ha
  · exact hwf.2.1 e h1

theorem find?_escrow_amount {s : Store} {eid : Nat} {e : Escrow}
    (hwf : StoreWF s) (h : s.escrows.find? (fun x => x.id == eid) = some e) :
    0 < e.amount :=
  hwf.2.1 e (List.mem_of_find?_eq_some h)

theorem startEscrow_step (s : Store) (eid : Nat) (f : String)
    (hwf : StoreWF s) (hrec : ReconInv s) :
    StoreWF (startEscrow s eid f).1 ∧ ReconInv (startEscrow s eid f).1 ∧
      (AllWalletsInv s → AllWalletsInv (startEscrow s eid f).1) := by
  by_cases hf : f = ""
  · simp only [startEscrow, if_pos hf]
    exact ⟨hwf, hrec, fun h => h⟩
  · simp only [startEscrow, if_neg hf]
    cases he : s.escrows.find? (fun x => x.id == eid) with
    | none =>
        simp only [he]
        exact ⟨hwf, hrec, fun h => h⟩
    | some escrow =>
        simp only [he]
        by_cases hauth : escrow.freelancerId ≠ f
        · simp only [if_pos hauth]
          exact ⟨hwf, hrec, fun h => h⟩
        · simp only [if_neg hauth]
          by_cases hst : escrow.status ≠ EscrowStatus.funded
          · simp only [if_pos hst]
            exact ⟨hwf, hrec, fun h => h⟩
          · simp only [if_neg hst]
            exact escrow_update_step s eid _ hwf hrec
              (hwf.2.1 escrow (List.mem_of_find?_eq_some he))

theorem deliverEscrow_step (s : Store) (eid : Nat) (f dm : String)
    (dfs : Option (List String)) (hwf : StoreWF s) (hrec : ReconInv s) :
    StoreWF (deliverEscrow s eid f dm dfs).1 ∧
    ReconInv (deliverEscrow s eid f dm dfs).1 ∧
      (AllWalletsInv s → AllWalletsInv (deliverEscrow s eid f dm dfs).1) := by
  by_cases hf : f = "" ∨ dm = ""
  · simp only [deliverEscrow, if_pos hf]
    exact ⟨hwf, hrec, fun h => h⟩
  · simp only [deliverEscrow, if_neg hf]
    cases he : s.escrows.find? (fun x => x.id == eid) with
    | none =>
        simp only [he]
        exact ⟨hwf, hrec, fun h => h⟩
    | some escrow =>
        simp only [he]
        by_cases hauth : escrow.freelancerId ≠ f
        · simp only [if_pos hauth]
          exact ⟨hwf, hrec, fun h => h⟩
        · simp only [if_neg hauth]
          by_cases hst : escrow.status ≠ EscrowStatus.in_progress
          · simp only [if_pos hst]
            exact ⟨hwf, hrec, fun h => h⟩
          · simp only [if_neg hst]
            exact escrow_update_step s eid _ hwf hrec
              (hwf.2.1 escrow (List.mem_of_find?_eq_some he))

theorem rejectEscrow_step (s : Store) (eid : Nat) (c r : String)
    (hwf : StoreWF s) (hrec : ReconInv s) :
    StoreWF (rejectEscrow s eid c r).1 ∧ ReconInv (rejectEscrow s eid c r).1 ∧
      (AllWalletsInv s → AllWalletsInv (rejectEscrow s eid c r).1) := by
  by_cases hc : c = "" ∨ r = ""
  · simp only [rejectEscrow, if_pos hc]
    exact ⟨hwf, hrec, fun h => h⟩
  · simp only [rejectEscrow, if_neg hc]
    cases he : s.escrows.find? (fun x => x.id == eid) with
    | none =>
        simp only [he]
        exact ⟨hwf, hrec, fun h => h⟩
    | some escrow =>
        simp only [he]
        by_cases hauth : escrow.clientId ≠ c
        · simp only [if_pos hauth]
          exact ⟨hwf, hrec, fun h => h⟩
        · simp only [if_neg hauth]
          by_cases hst : escrow.status ≠ EscrowStatus.delivered
          · simp only [if_pos hst]
            exact ⟨hwf, hrec, fun h => h⟩
          · simp only [if_neg hst]
            exact escrow_update_step s eid _ hwf hrec
              (hwf.2.1 escrow (List.mem_of_find?_eq_some he))

theorem any_eq_false_of_not {ws : List Wallet} {p : Wallet → Bool}
    (h : ¬ (ws.any p = true)) : ws.any p = false := by
  cases hb : ws.any p with
  | false => rfl
  | true => exact absurd hb h

theorem approve_core (s : Store) (eid : Nat) (e1 : Escrow)
    (cw cw1 fw1 : Wallet) (tx : Transaction) (cid fid : String)
    (hwf : StoreWF s) (hrec : ReconInv s)
    (hcw : findWallet s cid = some cw)
    (hcw1u : cw1.userId = cw.userId)
    (hcw1b : cw1.balance = cw.balance)
    (hfw1u : fw1.userId = fid)
    (htxu : tx.userId = fid)
    (hfb : fw1.balance = txSum s.transactions fid + tx.amount)
    (he1 : 0 < e1.amount) :
    StoreWF { s with
      transactions := s.transactions ++ [tx],
      escrows := updateEscrow s.escrows eid e1,
      wallets := upsertWallet (upsertWallet s.wallets (walletSave cw1))
        (walletSave fw1),
      nextTxId := s.nextTxId + 1 } ∧
    ReconInv { s with
      transactions := s.transactions ++ [tx],
      escrows := updateEscrow s.escrows eid e1,
      wallets := upsertWallet (upsertWallet s.wallets (walletSave cw1))
        (walletSave fw1),
      nextTxId := s.nextTxId + 1 } ∧
    (AllWalletsInv s → WalletInv cw1 → WalletInv fw1 →
      AllWalletsInv { s with
        transactions := s.transactions ++ [tx],
        escrows := updateEscrow s.escrows eid e1,
        wallets := upsertWallet (upsertWallet s.wallets (walletSave cw1))
          (walletSave fw1),
        nextTxId := s.nextTxId + 1 }) := by
  have hany1 : (s.wallets.any fun x =>
      x.userId == (walletSave cw1).userId) = true := by
    apply upsert_any_of_findWallet hcw
    rw [walletSave_userId, hcw1u, findWallet_userId hcw]
  have hmap1 : (upsertWallet s.wallets (walletSave cw1)).map Wallet.userId =
      s.wallets.map Wallet.userId := map_userId_upsert_of_mem hany1
  have hrec1 : ∀ x ∈ upsertWallet s.wallets (walletSave cw1),
      x.balance = txSum s.transactions x.userId := by
    apply recon_upsert_same hrec
    rw [hcw1b, hcw1u]
    exact hrec cw (findWallet_mem hcw)
  refine ⟨⟨?_, ?_, ?_⟩, ?_, ?_⟩
  · show ((upsertWallet (upsertWallet s.wallets (walletSave cw1))
      (walletSave fw1)).map Wallet.userId).Nodup
    rw [map_userId_upsertWallet]
    by_cases hany2 : ((upsertWallet s.wallets (walletSave cw1)).any
        fun x => x.userId == (walletSave fw1).userId) = true
    · rw [if_pos hany2, hmap1]
      exact hwf.1
    · rw [if_neg hany2, hmap1, List.nodup_append]
      refine ⟨hwf.1, by simp, ?_⟩
      intro v hv hv2
      have hv3 : v = (walletSave fw1).userId := by simpa using hv2
      have hf := List.any_eq_false.1 (any_eq_false_of_not hany2)
      rw [← hmap1] at hv
      obtain ⟨x, hx, hxu⟩ := List.mem_map.1 hv
      apply hf x hx
      rw [hxu, hv3]
      simp
  · intro e he
    rcases mem_updateEscrow he with rfl | h1
    · exact he1
    · exact hwf.2.1 e h1
  · intro t ht
    show t.userId ∈ (upsertWallet (upsertWallet s.wallets (walletSave cw1))
      (walletSave fw1)).map Wallet.userId
    rw [map_userId_upsertWallet]
    by_cases hany2 : ((upsertWallet s.wallets (walletSave cw1)).any
        fun x => x.userId == (walletSave fw1).userId) = true
    · rw [if_pos hany2, hmap1]
      rcases List.mem_append.1 ht with h1 | h1
      · exact hwf.2.2 t h1
      · have ht2 : t = tx := by simpa using h1
        rw [ht2, htxu]
        obtain ⟨x, hx, hxp⟩ := List.any_eq_true.1 hany2
        have hxu : x.userId = fw1.userId := by simpa [walletSave_userId] using hxp
        rw [← hmap1]
        rw [List.mem_map]
        exact ⟨x, hx, by rw [hxu, hfw1u]⟩
    · rw [if_neg hany2, hmap1]
      rcases List.mem_append.1 ht with h1 | h1
      · exact List.mem_append_left _ (hwf.2.2 t h1)
      · have ht2 : t = tx := by simpa using h1
        apply List.mem_append_right
        rw [ht2, htxu, walletSave_userId, hfw1u]
        simp
  · show ∀ x ∈ upsertWallet (upsertWallet s.wallets (walletSave cw1))
      (walletSave fw1), x.balance = txSum (s.transactions ++ [tx]) x.userId
    apply recon_upsert_append hrec1
    · rw [htxu, hfw1u]
    · rw [hfw1u]
      exact hfb
  · intro hinv h1 h2
    intro x hx
    exact inv_upsertWallet (inv_upsertWallet hinv h1) h2 x hx

theorem approveEscrow_step (s : Store) (eid : Nat) (c : String)
    (r : Option Nat) (fb : Option String)
    (hwf : StoreWF s) (hrec : ReconInv s) :
    StoreWF (approveEscrow s eid c r fb).1 ∧
    ReconInv (approveEscrow s eid c r fb).1 ∧
    (AllWalletsInv s → AllWalletsInv (approveEscrow s eid c r fb).1) := by
  by_cases hc : c = ""
  · simp only [approveEscrow, if_pos hc]
    exact ⟨hwf, hrec, fun h => h⟩
  · simp only [approveEscrow, if_neg hc]
    cases he : s.escrows.find? (fun x => x.id == eid) with
    | none =>
        simp only [he]
        exact ⟨hwf, hrec, fun h => h⟩
    | some escrow =>
        simp only [he]
        by_cases hauth : escrow.clientId ≠ c
        · simp only [if_pos hauth]
          exact ⟨hwf, hrec, fun h => h⟩
        · simp only [if_neg hauth]
          by_cases hst : escrow.status ≠ EscrowStatus.delivered
          · simp only [if_pos hst]
            exact ⟨hwf, hrec, fun h => h⟩
          · simp only [if_neg hst]
            cases hcw : findWallet s escrow.clientId with
            | none =>
                simp only [hcw]
                exact ⟨hwf, hrec, fun h => h⟩
            | some cw =>
                simp only [hcw]
                have hamt : (0 : ℚ) < escrow.amount :=
                  hwf.2.1 escrow (List.mem_of_find?_eq_some he)
                have hfsum : ∀ _ : findWallet s escrow.freelancerId = none,
                    txSum s.transactions escrow.freelancerId = 0 := by
                  intro hfw
                  apply txSum_eq_zero
                  intro t ht htu
                  have hmem := hwf.2.2 t ht
                  rw [htu] at hmem
                  obtain ⟨y, hy, hyu⟩ := List.mem_map.1 hmem
                  exact findWallet_none hfw y hy hyu
                have hcore0 : ∀ cw1 fw1 : Wallet,
                    cw1.userId = cw.userId → cw1.balance = cw.balance →
                    fw1.userId = escrow.freelancerId →
                    fw1.balance = txSum s.transactions escrow.freelancerId +
                      escrow.amount →
                    StoreWF { s with
                      transactions := s.transactions ++
                        [{ id := s.nextTxId, userId := escrow.freelancerId,
                           amount := escrow.amount, currency := escrow.currency,
                           status := .completed,
                           paymentMethodId := "system_transfer",
                           type := .payment,
                           description := "Payment for completed work: " ++
                             escrow.serviceName,
                           reference := some escrow.id }],
                      escrows := updateEscrow s.escrows eid
                        { escrow with
                          status := .approved,
                          approvalRating := (match r with
                            | some x => some x
                            | none => escrow.approvalRating),
                          approvalFeedback := (match fb with
                            | some f => some f
                            | none => escrow.approvalFeedback) },
                      wallets := upsertWallet
                        (upsertWallet s.wallets (walletSave cw1))
                        (walletSave fw1),
                      nextTxId := s.nextTxId + 1 } ∧
                    ReconInv { s with
                      transactions := s.transactions ++
                        [{ id := s.nextTxId, userId := escrow.freelancerId,
                           amount := escrow.amount, currency := escrow.currency,
                           status := .completed,
                           paymentMethodId := "system_transfer",
                           type := .payment,
                           description := "Payment for completed work: " ++
                             escrow.serviceName,
                           reference := some escrow.id }],
                      escrows := updateEscrow s.escrows eid
                        { escrow with
                          status := .approved,
                          approvalRating := (match r with
                            | some x => some x
                            | none => escrow.approvalRating),
                          approvalFeedback := (match fb with
                            | some f => some f
                            | none => escrow.approvalFeedback) },
                      wallets := upsertWallet
                        (upsertWallet s.wallets (walletSave cw1))
                        (walletSave fw1),
                      nextTxId := s.nextTxId + 1 } ∧
                    (AllWalletsInv s → WalletInv cw1 → WalletInv fw1 →
                      AllWalletsInv { s with
                        transactions := s.transactions ++
                          [{ id := s.nextTxId, userId := escrow.freelancerId,
                             amount := escrow.amount,
                             currency := escrow.currency,
                             status := .completed,
                             paymentMethodId := "system_transfer",
                             type := .payment,
                             description := "Payment for completed work: " ++
                               escrow.serviceName,
                             reference := some escrow.id }],
                        escrows := updateEscrow s.escrows eid
                          { escrow with
                            status := .approved,
                            approvalRating := (match r with
                              | some x => some x
                              | none => escrow.approvalRating),
                            approvalFeedback := (match fb with
                              | some f => some f
                              | none => escrow.approvalFeedback) },
                        wallets := upsertWallet
                          (upsertWallet s.wallets (walletSave cw1))
                          (walletSave fw1),
                        nextTxId := s.nextTxId + 1 }) := by
                  intro cw1 fw1 h1 h2 h3 h4
                  exact approve_core s eid _ cw cw1 fw1 _
                    escrow.clientId escrow.freelancerId hwf hrec hcw
                    h1 h2 h3 rfl h4 hamt
                cases hfw : findWallet s escrow.freelancerId with
                | some fw =>
                    have hfb : fw.balance + escrow.amount =
                        txSum s.transactions escrow.freelancerId +
                          escrow.amount := by
                      rw [← findWallet_userId hfw,
                        hrec fw (findWallet_mem hfw)]
                    simp only [hfw]
                    cases hidx : cw.escrowReserves.findIdx?
                        (fun x => x.escrowId == eid) with
                    | some i =>
                        simp only [hidx]
                        have hcore := hcore0
                          (recalculateReservedBalance { cw with
                            escrowReserves := cw.escrowReserves.eraseIdx i })
                          { fw with balance := fw.balance + escrow.amount }
                          rfl rfl
                          (show fw.userId = escrow.freelancerId from
                            findWallet_userId hfw)
                          hfb
                        refine ⟨hcore.1, hcore.2.1, ?_⟩
                        intro hinv
                        have hcwinv := hinv cw (findWallet_mem hcw)
                        have hfwinv := hinv fw (findWallet_mem hfw)
                        apply hcore.2.2 hinv
                        · refine ⟨rfl, ?_, ?_⟩
                          · intro x hx
                            exact hcwinv.2.1 x (mem_of_mem_eraseIdx hx)
                          · show reservesSum (cw.escrowReserves.eraseIdx i) ≤
                              cw.balance
                            have h1 := reservesSum_eraseIdx_le i hcwinv.2.1
                            rw [← hcwinv.1] at h1
                            exact le_trans h1 hcwinv.2.2
                        · refine ⟨hfwinv.1, hfwinv.2.1, ?_⟩
                          show fw.reservedBalance ≤ fw.balance + escrow.amount
                          have := hfwinv.2.2
                          linarith
                    | none =>
                        simp only [hidx]
                        have hcore := hcore0 cw
                          { fw with balance := fw.balance + escrow.amount }
                          rfl rfl
                          (show fw.userId = escrow.freelancerId from
                            findWallet_userId hfw)
                          hfb
                        refine ⟨hcore.1, hcore.2.1, ?_⟩
                        intro hinv
                        have hfwinv := hinv fw (findWallet_mem hfw)
                        apply hcore.2.2 hinv (hinv cw (findWallet_mem hcw))
                        refine ⟨hfwinv.1, hfwinv.2.1, ?_⟩
                        show fw.reservedBalance ≤ fw.balance + escrow.amount
                        have := hfwinv.2.2
                        linarith
                | none =>
                    have hfb : (0 : ℚ) + escrow.amount =
                        txSum s.transactions escrow.freelancerId +
                          escrow.amount := by
                      rw [hfsum hfw]
                    simp only [hfw]
                    cases hidx : cw.escrowReserves.findIdx?
                        (fun x => x.escrowId == eid) with
                    | some i =>
                        simp only [hidx]
                        have hcore := hcore0
                          (recalculateReservedBalance { cw with
                            escrowReserves := cw.escrowReserves.eraseIdx i })
                          { { newWallet escrow.freelancerId with
                              currency := escrow.currency } with
                            balance := ({ newWallet escrow.freelancerId with
                              currency := escrow.currency } : Wallet).balance +
                              escrow.amount }
                          rfl rfl rfl hfb
                        refine ⟨hcore.1, hcore.2.1, ?_⟩
                        intro hinv
                        have hcwinv := hinv cw (findWallet_mem hcw)
                        apply hcore.2.2 hinv
                        · refine ⟨rfl, ?_, ?_⟩
                          · intro x hx
                            exact hcwinv.2.1 x (mem_of_mem_eraseIdx hx)
                          · show reservesSum (cw.escrowReserves.eraseIdx i) ≤
                              cw.balance
                            have h1 := reservesSum_eraseIdx_le i hcwinv.2.1
                            rw [← hcwinv.1] at h1
                            exact le_trans h1 hcwinv.2.2
                        · refine ⟨rfl, ?_, ?_⟩
                          · intro x hx
                            simp [newWallet] at hx
                          · show (0 : ℚ) ≤ 0 + escrow.amount
                            linarith
                    | none =>
                        simp only [hidx]
                        have hcore := hcore0 cw
                          { { newWallet escrow.freelancerId with
                              currency := escrow.currency } with
                            balance := ({ newWallet escrow.freelancerId with
                              currency := escrow.currency } : Wallet).balance +
                              escrow.amount }
                          rfl rfl rfl hfb
                        refine ⟨hcore.1, hcore.2.1, ?_⟩
                        intro hinv
                        apply hcore.2.2 hinv (hinv cw (findWallet_mem hcw))
                        refine ⟨rfl, ?_, ?_⟩
                        · intro x hx
                          simp [newWallet] at hx
                        · show (0 : ℚ) ≤ 0 + escrow.amount
                          linarith

theorem applyOp_step (s : Store) (op : Op) (hwf : StoreWF s)
    (hrec : ReconInv s) :
    StoreWF (applyOp s op).1 ∧ ReconInv (applyOp s op).1 ∧
      (AllWalletsInv s → SafeOp s op → AllWalletsInv (applyOp s op).1) := by
  cases op with
  | deposit u a c p =>
      have h := deposit_step s u a c p hwf hrec
      exact ⟨h.1, h.2.1, fun hi _ => h.2.2 hi⟩
  | withdraw u a c p =>
      have h := withdraw_step s u a c p hwf hrec
      exact ⟨h.1, h.2.1, fun hi _ => h.2.2 hi⟩
  | addPaymentMethod u t n d =>
      have h := addPaymentMethod_step s u t n d hwf hrec
      exact ⟨h.1, h.2.1, fun hi _ => h.2.2 hi⟩
  | removePaymentMethod u m =>
      have h := removePaymentMethod_step s u m hwf hrec
      exact ⟨h.1, h.2.1, fun hi _ => h.2.2 hi⟩
  | setDefaultPaymentMethod u m =>
      have h := setDefaultPaymentMethod_step s u m hwf hrec
      exact ⟨h.1, h.2.1, fun hi _ => h.2.2 hi⟩
  | createEscrow cid fid sid sn d a cur p tm =>
      have h := createEscrow_step s cid fid sid sn d a cur p tm hwf hrec
      exact ⟨h.1, h.2.1, fun hi hs => h.2.2 hi hs⟩
  | startEscrow e f =>
      have h := startEscrow_step s e f hwf hrec
      exact ⟨h.1, h.2.1, fun hi _ => h.2.2 hi⟩
  | deliverEscrow e f m fs =>
      have h := deliverEscrow_step s e f m fs hwf hrec
      exact ⟨h.1, h.2.1, fun hi _ => h.2.2 hi⟩
  | approveEscrow e c r fb =>
      have h := approveEscrow_step s e c r fb hwf hrec
      exact ⟨h.1, h.2.1, fun hi _ => h.2.2 hi⟩
  | rejectEscrow e c r =>
      have h := rejectEscrow_step s e c r hwf hrec
      exact ⟨h.1, h.2.1, fun hi _ => h.2.2 hi⟩

theorem applyOps_cons (s : Store) (op : Op) (ops : List Op) :
    applyOps s (op :: ops) = applyOps (applyOp s op).1 ops := rfl

theorem applyOps_wf_recon (ops : List Op) :
    ∀ s : Store, StoreWF s → ReconInv s →
      StoreWF (applyOps s ops) ∧ ReconInv (applyOps s ops) := by
  induction ops with
  | nil => exact fun s hwf hrec => ⟨hwf, hrec⟩
  | cons op ops ih =>
      intro s hwf hrec
      have h := applyOp_step s op hwf hrec
      rw [applyOps_cons]
      exact ih _ h.1 h.2.1

theorem emptyStore_WF : StoreWF emptyStore := by
  refine ⟨?_, ?_, ?_⟩
  · simp [emptyStore]
  · intro e he
    simp [emptyStore] at he
  · intro t ht
    simp [emptyStore] at ht

theorem emptyStore_recon : ReconInv emptyStore := by
  intro w hw
  simp [emptyStore] at hw

theorem walletSave_of_empty {w : Wallet} (h : w.escrowReserves = []) :
    walletSave w = w := by
  unfold walletSave
  rw [h]
  rfl

theorem find?_updateEscrow_self {es : List Escrow} {eid : Nat}
    {e0 e1 : Escrow} (h : es.find? (fun x => x.id == eid) = some e0)
    (h1 : (e1.id == eid) = true) :
    (updateEscrow es eid e1).find? (fun x => x.id == eid) = some e1 := by
  induction es with
  | nil => simp [List.find?] at h
  | cons a as ih =>
      unfold updateEscrow
      rw [List.map_cons]
      by_cases ha : (a.id == eid) = true
      · rw [if_pos ha]
        simp only [List.find?_cons, h1]
      · rw [if_neg ha]
        have hb : (a.id == eid) = false := by
          cases hx : (a.id == eid) with
          | false => rfl
          | true => exact absurd hx ha
        simp only [List.find?_cons, hb]
        simp only [List.find?_cons, hb] at h
        exact ih h

/-! ### Claim theorems -/

/-- C4: a successful approve on a delivered escrow, called by the matching
client, removes the escrow reserve entry from the client wallet and
recomputes reservedBalance as the sum of the remaining entries, credits the
recipient wallet by exactly escrow.amount (creating that wallet if absent),
appends a payment Transaction of +escrow.amount referencing the escrow, and
sets the status to approved; the platform fee is paid to neither party (the
client balance is unchanged and the recipient gains exactly escrow.amount,
not escrow.amount plus the fee). -/
theorem approve_releases_payment (s : Store) (eid : Nat) (c : String)
    (r : Option Nat) (fb : Option String) (escrow : Escrow) (cw : Wallet)
    (i : Nat)
    (hc : c ≠ "")
    (he : s.escrows.find? (fun x => x.id == eid) = some escrow)
    (hauth : escrow.clientId = c)
    (hst : escrow.status = EscrowStatus.delivered)
    (hne : escrow.freelancerId ≠ escrow.clientId)
    (hcw : findWallet s escrow.clientId = some cw)
    (hidx : cw.escrowReserves.findIdx? (fun x => x.escrowId == eid) = some i) :
    (approveEscrow s eid c r fb).2 = none ∧
    balanceOf (approveEscrow s eid c r fb).1 escrow.clientId =
      balanceOf s escrow.clientId ∧
    reservesOf (approveEscrow s eid c r fb).1 escrow.clientId =
      cw.escrowReserves.eraseIdx i ∧
    reservedOf (approveEscrow s eid c r fb).1 escrow.clientId =
      reservesSum (cw.escrowReserves.eraseIdx i) ∧
    balanceOf (approveEscrow s eid c r fb).1 escrow.freelancerId =
      balanceOf s escrow.freelancerId + escrow.amount ∧
    (approveEscrow s eid c r fb).1.transactions = s.transactions ++
      [{ id := s.nextTxId, userId := escrow.freelancerId,
         amount := escrow.amount, currency := escrow.currency,
         status := .completed, paymentMethodId := "system_transfer",
         type := .payment,
         description := "Payment for completed work: " ++ escrow.serviceName,
         reference := some escrow.id }] ∧
    escrowStatusOf (approveEscrow s eid c r fb).1 eid =
      some EscrowStatus.approved := by
  have hnn1 : ¬ (escrow.clientId ≠ c) := fun hh => hh hauth
  have hnn2 : ¬ (escrow.status ≠ EscrowStatus.delivered) := fun hh => hh hst
  have hbs : balanceOf s escrow.clientId = cw.balance := by
    unfold balanceOf
    rw [hcw]
  have heid := List.find?_some he
  cases hfw : findWallet s escrow.freelancerId with
  | some fw =>
      have hbf : balanceOf s escrow.freelancerId = fw.balance := by
        unfold balanceOf
        rw [hfw]
      simp only [approveEscrow, if_neg hc, he, if_neg hnn1, if_neg hnn2,
        hcw, hfw, hidx]
      have hsave : walletSave (recalculateReservedBalance { cw with
          escrowReserves := cw.escrowReserves.eraseIdx i }) =
          recalculateReservedBalance { cw with
            escrowReserves := cw.escrowReserves.eraseIdx i } :=
        walletSave_eq_self rfl
      have hcid : (walletSave (recalculateReservedBalance { cw with
          escrowReserves := cw.escrowReserves.eraseIdx i })).userId =
          escrow.clientId := by
        rw [walletSave_userId]
        exact (show cw.userId = escrow.clientId from findWallet_userId hcw)
      have hfid : (walletSave { fw with
          balance := fw.balance + escrow.amount }).userId =
          escrow.freelancerId := by
        rw [walletSave_userId]
        exact (show fw.userId = escrow.freelancerId from findWallet_userId hfw)
      have hfind_c : (upsertWallet (upsertWallet s.wallets
          (walletSave (recalculateReservedBalance { cw with
            escrowReserves := cw.escrowReserves.eraseIdx i })))
          (walletSave { fw with balance := fw.balance + escrow.amount })).find?
          (fun x => x.userId == escrow.clientId) =
          some (walletSave (recalculateReservedBalance { cw with
            escrowReserves := cw.escrowReserves.eraseIdx i })) := by
        rw [find?_upsertWallet_ne _ _ (by rw [hfid]; exact hne)]
        rw [← hcid]
        exact find?_upsertWallet_self _ _
      have hfind_f : (upsertWallet (upsertWallet s.wallets
          (walletSave (recalculateReservedBalance { cw with
            escrowReserves := cw.escrowReserves.eraseIdx i })))
          (walletSave { fw with balance := fw.balance + escrow.amount })).find?
          (fun x => x.userId == escrow.freelancerId) =
          some (walletSave { fw with
            balance := fw.balance + escrow.amount }) := by
        rw [← hfid]
        exact find?_upsertWallet_self _ _
      refine ⟨trivial, ?_, ?_, ?_, ?_, trivial, ?_⟩
      · show balanceOf _ escrow.clientId = balanceOf s escrow.clientId
        rw [hbs]
        unfold balanceOf findWallet
        rw [hfind_c, hsave]
        rfl
      · show reservesOf _ escrow.clientId = _
        unfold reservesOf findWallet
        rw [hfind_c, hsave]
        rfl
      · show reservedOf _ escrow.clientId = _
        unfold reservedOf findWallet
        rw [hfind_c, hsave]
        rfl
      · show balanceOf _ escrow.freelancerId = _
        rw [hbf]
        unfold balanceOf findWallet
        rw [hfind_f]
        show (walletSave { fw with
          balance := fw.balance + escrow.amount }).balance =
            fw.balance + escrow.amount
        rw [walletSave_balance]
      · show escrowStatusOf _ eid = _
        unfold escrowStatusOf
        have h7 : (updateEscrow s.escrows eid ({ escrow with
            status := EscrowStatus.approved,
            approvalRating := (match r with
              | some x => some x
              | none => escrow.approvalRating),
            approvalFeedback := (match fb with
              | some f => some f
              | none => escrow.approvalFeedback) })).find?
            (fun x => x.id == eid) = some ({ escrow with
            status := EscrowStatus.approved,
            approvalRating := (match r with
              | some x => some x
              | none => escrow.approvalRating),
            approvalFeedback := (match fb with
              | some f => some f
              | none => escrow.approvalFeedback) }) :=
          find?_updateEscrow_self he heid
        rw [h7]
        rfl
  | none =>
      have hbf : balanceOf s escrow.freelancerId = 0 := by
        unfold balanceOf
        rw [hfw]
      simp only [approveEscrow, if_neg hc, he, if_neg hnn1, if_neg hnn2,
        hcw, hfw, hidx]
      have hsave : walletSave (recalculateReservedBalance { cw with
          escrowReserves := cw.escrowReserves.eraseIdx i }) =
          recalculateReservedBalance { cw with
            escrowReserves := cw.escrowReserves.eraseIdx i } :=
        walletSave_eq_self rfl
      have hcid : (walletSave (recalculateReservedBalance { cw with
          escrowReserves := cw.escrowReserves.eraseIdx i })).userId =
          escrow.clientId := by
        rw [walletSave_userId]
        exact (show cw.userId = escrow.clientId from findWallet_userId hcw)
      have hfid : (walletSave { { newWallet escrow.freelancerId with
          currency := escrow.currency } with
          balance := ({ newWallet escrow.freelancerId with
            currency := escrow.currency } : Wallet).balance +
            escrow.amount }).userId = escrow.freelancerId := by
        rw [walletSave_userId]
        rfl
      have hfind_c : (upsertWallet (upsertWallet s.wallets
          (walletSave (recalculateReservedBalance { cw with
            escrowReserves := cw.escrowReserves.eraseIdx i })))
          (walletSave { { newWallet escrow.freelancerId with
            currency := escrow.currency } with
            balance := ({ newWallet escrow.freelancerId with
              currency := escrow.currency } : Wallet).balance +
              escrow.amount })).find?
          (fun x => x.userId == escrow.clientId) =
          some (walletSave (recalculateReservedBalance { cw with
            escrowReserves := cw.escrowReserves.eraseIdx i })) := by
        rw [find?_upsertWallet_ne _ _ (by rw [hfid]; exact hne)]
        rw [← hcid]
        exact find?_upsertWallet_self _ _
      have hfind_f : (upsertWallet (upsertWallet s.wallets
          (walletSave (recalculateReservedBalance { cw with
            escrowReserves := cw.escrowReserves.eraseIdx i })))
          (walletSave { { newWallet escrow.freelancerId with
            currency := escrow.currency } with
            balance := ({ newWallet escrow.freelancerId with
              currency := escrow.currency } : Wallet).balance +
              escrow.amount })).find?
          (fun x => x.userId == escrow.freelancerId) =
          some (walletSave { { newWallet escrow.freelancerId with
            currency := escrow.currency } with
            balance := ({ newWallet escrow.freelancerId with
              currency := escrow.currency } : Wallet).balance +
              escrow.amount }) := by
        rw [← hfid]
        exact find?_upsertWallet_self _ _
      refine ⟨trivial, ?_, ?_, ?_, ?_, trivial, ?_⟩
      · show balanceOf _ escrow.clientId = balanceOf s escrow.clientId
        rw [hbs]
        unfold balanceOf findWallet
        rw [hfind_c, hsave]
        rfl
      · show reservesOf _ escrow.clientId = _
        unfold reservesOf findWallet
        rw [hfind_c, hsave]
        rfl
      · show reservedOf _ escrow.clientId = _
        unfold reservedOf findWallet
        rw [hfind_c, hsave]
        rfl
      · show balanceOf _ escrow.freelancerId = _
        rw [hbf]
        unfold balanceOf findWallet
        rw [hfind_f]
        show (walletSave { { newWallet escrow.freelancerId with
          currency := escrow.currency } with
          balance := ({ newWallet escrow.freelancerId with
            currency := escrow.currency } : Wallet).balance +
            escrow.amount }).balance = 0 + escrow.amount
        rw [walletSave_balance]
        rfl
      · show escrowStatusOf _ eid = _
        unfold escrowStatusOf
        have h7 : (updateEscrow s.escrows eid ({ escrow with
            status := EscrowStatus.approved,
            approvalRating := (match r with
              | some x => some x
              | none => escrow.approvalRating),
            approvalFeedback := (match fb with
              | some f => some f
              | none => escrow.approvalFeedback) })).find?
            (fun x => x.id == eid) = some ({ escrow with
            status := EscrowStatus.approved,
            approvalRating := (match r with
              | some x => some x
              | none => escrow.approvalRating),
            approvalFeedback := (match fb with
              | some f => some f
              | none => escrow.approvalFeedback) }) :=
          find?_updateEscrow_self he heid
        rw [h7]
        rfl

/-- C8: approve on a delivered escrow by the matching client succeeds even
when the client wallet holds no escrowReserves entry for that escrow: the
recipient is still credited by escrow.amount and the escrow is still set to
approved, while the client wallet balance and reservedBalance stay
unchanged (stated for a client wallet whose stored reservedBalance is
consistent with its entries, which holds for every wallet the real-branch
operations produce; otherwise the save hook itself rewrites the field). -/
theorem approve_without_reserve_entry (s : Store) (eid : Nat) (c : String)
    (r : Option Nat) (fb : Option String) (escrow : Escrow) (cw : Wallet)
    (hc : c ≠ "")
    (he : s.escrows.find? (fun x => x.id == eid) = some escrow)
    (hauth : escrow.clientId = c)
    (hst : escrow.status = EscrowStatus.delivered)
    (hne : escrow.freelancerId ≠ escrow.clientId)
    (hcw : findWallet s escrow.clientId = some cw)
    (hidx : cw.escrowReserves.findIdx? (fun x => x.escrowId == eid) = none)
    (hcons : cw.escrowReserves = [] ∨
      cw.reservedBalance = reservesSum cw.escrowReserves) :
    (approveEscrow s eid c r fb).2 = none ∧
    balanceOf (approveEscrow s eid c r fb).1 escrow.clientId =
      balanceOf s escrow.clientId ∧
    reservedOf (approveEscrow s eid c r fb).1 escrow.clientId =
      reservedOf s escrow.clientId ∧
    balanceOf (approveEscrow s eid c r fb).1 escrow.freelancerId =
      balanceOf s escrow.freelancerId + escrow.amount ∧
    escrowStatusOf (approveEscrow s eid c r fb).1 eid =
      some EscrowStatus.approved := by
  have hnn1 : ¬ (escrow.clientId ≠ c) := fun hh => hh hauth
  have hnn2 : ¬ (escrow.status ≠ EscrowStatus.delivered) := fun hh => hh hst
  have hbs : balanceOf s escrow.clientId = cw.balance := by
    unfold balanceOf
    rw [hcw]
  have hrs : reservedOf s escrow.clientId = cw.reservedBalance := by
    unfold reservedOf
    rw [hcw]
  have heid := List.find?_some he
  have hsave : walletSave cw = cw := by
    rcases hcons with h | h
    · exact walletSave_of_empty h
    · exact walletSave_eq_self h
  cases hfw : findWallet s escrow.freelancerId with
  | some fw =>
      have hbf : balanceOf s escrow.freelancerId = fw.balance := by
        unfold balanceOf
        rw [hfw]
      simp only [approveEscrow, if_neg hc, he, if_neg hnn1, if_neg hnn2,
        hcw, hfw, hidx]
      have hcid : (walletSave cw).userId = escrow.clientId := by
        rw [walletSave_userId]
        exact (show cw.userId = escrow.clientId from findWallet_userId hcw)
      have hfid : (walletSave { fw with
          balance := fw.balance + escrow.amount }).userId =
          escrow.freelancerId := by
        rw [walletSave_userId]
        exact (show fw.userId = escrow.freelancerId from findWallet_userId hfw)
      have hfind_c : (upsertWallet (upsertWallet s.wallets (walletSave cw))
          (walletSave { fw with balance := fw.balance + escrow.amount })).find?
          (fun x => x.userId == escrow.clientId) = some (walletSave cw) := by
        rw [find?_upsertWallet_ne _ _ (by rw [hfid]; exact hne)]
        rw [← hcid]
        exact find?_upsertWallet_self _ _
      have hfind_f : (upsertWallet (upsertWallet s.wallets (walletSave cw))
          (walletSave { fw with balance := fw.balance + escrow.amount })).find?
          (fun x => x.userId == escrow.freelancerId) =
          some (walletSave { fw with
            balance := fw.balance + escrow.amount }) := by
        rw [← hfid]
        exact find?_upsertWallet_self _ _
      refine ⟨trivial, ?_, ?_, ?_, ?_⟩
      · show balanceOf _ escrow.clientId = balanceOf s escrow.clientId
        rw [hbs]
        unfold balanceOf findWallet
        rw [hfind_c, hsave]
      · show reservedOf _ escrow.clientId = reservedOf s escrow.clientId
        rw [hrs]
        unfold reservedOf findWallet
        rw [hfind_c, hsave]
      · show balanceOf _ escrow.freelancerId = _
        rw [hbf]
        unfold balanceOf findWallet
        rw [hfind_f]
        show (walletSave { fw with
          balance := fw.balance + escrow.amount }).balance =
            fw.balance + escrow.amount
        rw [walletSave_balance]
      · show escrowStatusOf _ eid = _
        unfold escrowStatusOf
        have h7 : (updateEscrow s.escrows eid ({ escrow with
            status := EscrowStatus.approved,
            approvalRating := (match r with
              | some x => some x
              | none => escrow.approvalRating),
            approvalFeedback := (match fb with
              | some f => some f
              | none => escrow.approvalFeedback) })).find?
            (fun x => x.id == eid) = some ({ escrow with
            status := EscrowStatus.approved,
            approvalRating := (match r with
              | some x => some x
              | none => escrow.approvalRating),
            approvalFeedback := (match fb with
              | some f => some f
              | none => escrow.approvalFeedback) }) :=
          find?_updateEscrow_self he heid
        rw [h7]
        rfl
  | none =>
      have hbf : balanceOf s escrow.freelancerId = 0 := by
        unfold balanceOf
        rw [hfw]
      simp only [approveEscrow, if_neg hc, he, if_neg hnn1, if_neg hnn2,
        hcw, hfw, hidx]
      have hcid : (walletSave cw).userId = escrow.clientId := by
        rw [walletSave_userId]
        exact (show cw.userId = escrow.clientId from findWallet_userId hcw)
      have hfid : (walletSave { { newWallet escrow.freelancerId with
          currency := escrow.currency } with
          balance := ({ newWallet escrow.freelancerId with
            currency := escrow.currency } : Wallet).balance +
            escrow.amount }).userId = escrow.freelancerId := by
        rw [walletSave_userId]
        rfl
      have hfind_c : (upsertWallet (upsertWallet s.wallets (walletSave cw))
          (walletSave { { newWallet escrow.freelancerId with
            currency := escrow.currency } with
            balance := ({ newWallet escrow.freelancerId with
              currency := escrow.currency } : Wallet).balance +
              escrow.amount })).find?
          (fun x => x.userId == escrow.clientId) = some (walletSave cw) := by
        rw [find?_upsertWallet_ne _ _ (by rw [hfid]; exact hne)]
        rw [← hcid]
        exact find?_upsertWallet_self _ _
      have hfind_f : (upsertWallet (upsertWallet s.wallets (walletSave cw))
          (walletSave { { newWallet escrow.freelancerId with
            currency := escrow.currency } with
            balance := ({ newWallet escrow.freelancerId with
              currency := escrow.currency } : Wallet).balance +
              escrow.amount })).find?
          (fun x => x.userId == escrow.freelancerId) =
          some (walletSave { { newWallet escrow.freelancerId with
            currency := escrow.currency } with
            balance := ({ newWallet escrow.freelancerId with
              currency := escrow.currency } : Wallet).balance +
              escrow.amount }) := by
        rw [← hfid]
        exact find?_upsertWallet_self _ _
      refine ⟨trivial, ?_, ?_, ?_, ?_⟩
      · show balanceOf _ escrow.clientId = balanceOf s escrow.clientId
        rw [hbs]
        unfold balanceOf findWallet
        rw [hfind_c, hsave]
      · show reservedOf _ escrow.clientId = reservedOf s escrow.clientId
        rw [hrs]
        unfold reservedOf findWallet
        rw [hfind_c, hsave]
      · show balanceOf _ escrow.freelancerId = _
        rw [hbf]
        unfold balanceOf findWallet
        rw [hfind_f]
        show (walletSave { { newWallet escrow.freelancerId with
          currency := escrow.currency } with
          balance := ({ newWallet escrow.freelancerId with
            currency := escrow.currency } : Wallet).balance +
            escrow.amount }).balance = 0 + escrow.amount
        rw [walletSave_balance]
        rfl
      · show escrowStatusOf _ eid = _
        unfold escrowStatusOf
        have h7 : (updateEscrow s.escrows eid ({ escrow with
            status := EscrowStatus.approved,
            approvalRating := (match r with
              | some x => some x
              | none => escrow.approvalRating),
            approvalFeedback := (match fb with
              | some f => some f
              | none => escrow.approvalFeedback) })).find?
            (fun x => x.id == eid) = some ({ escrow with
            status := EscrowStatus.approved,
            approvalRating := (match r with
              | some x => some x
              | none => escrow.approvalRating),
            approvalFeedback := (match fb with
              | some f => some f
              | none => escrow.approvalFeedback) }) :=
          find?_updateEscrow_self he heid
        rw [h7]
        rfl

/-- C9: the pre-save hook recomputes reservedBalance as the sum of the
escrowReserves amounts only when escrowReserves is non-empty; when it is
empty, the save keeps whatever reservedBalance value is stored, even a
non-zero one. -/
theorem walletSave_reservedBalance_policy (w : Wallet) :
    (walletSave w).reservedBalance =
      if w.escrowReserves.isEmpty then w.reservedBalance
      else reservesSum w.escrowReserves := by
  cases hl : w.escrowReserves with
  | nil =>
      simp [walletSave, recalculateReservedBalance, hl]
  | cons a as =>
      simp [walletSave, recalculateReservedBalance, hl]

/-- C10: withdraw evaluates the insufficient-funds condition before
resolving the payment method: whenever amount exceeds the available balance
and the paymentMethodId is unknown on the wallet, the result is the
insufficient-funds error carrying availableBalance and requested, not the
payment-method NotFound error. -/
theorem withdraw_checks_funds_before_method (s : Store) (u : String) (a : ℚ)
    (c p : String) (hu : u ≠ "") (ha : 0 < a) (hp : p ≠ "")
    (hunknown : ∀ m ∈ (getOrCreateWallet s u).1.paymentMethods, m.id ≠ p)
    (hav : a > (getOrCreateWallet s u).1.balance -
      (getOrCreateWallet s u).1.reservedBalance) :
    (withdraw s u a c p).2 = some (.insufficientFunds
      ((getOrCreateWallet s u).1.balance -
        (getOrCreateWallet s u).1.reservedBalance) a) := by
  simp only [withdraw, if_neg hu, if_neg (not_le.2 ha), if_neg hp, if_pos hav]

/-- C1 (amended): for a well-formed store in which every wallet satisfies
the ledger invariant and the reconciliation invariant, every committed
operation preserves balance >= reservedBalance >= 0 and reservedBalance =
sum of escrowReserves amounts, provided every escrow create can also afford
the reserve on top of its debit (SafeOp): the code's own funds check
(totalAmount <= available) is weaker, and a create with totalAmount <=
available < amount + totalAmount leaves balance < reservedBalance. -/
theorem wallet_invariant_step (s : Store) (op : Op)
    (hwf : StoreWF s) (hrec : ReconInv s) (hinv : AllWalletsInv s)
    (hsafe : SafeOp s op) :
    ∀ w ∈ (applyOp s op).1.wallets,
      w.reservedBalance = reservesSum w.escrowReserves ∧
      0 ≤ w.reservedBalance ∧ w.reservedBalance ≤ w.balance := by
  have h := (applyOp_step s op hwf hrec).2.2 hinv hsafe
  intro w hw
  have h1 := h w hw
  refine ⟨h1.1, ?_, h1.2.2⟩
  rw [h1.1]
  exact reservesSum_nonneg h1.2.1

/-- C2: starting from the empty store (every wallet is created with zero
balance), after any sequence of committed operations every wallet balance
equals the signed sum of the Transaction records of its user (deposits
+amount, withdrawals -amount, escrow funding -totalAmount for the client,
approval payment +escrow.amount for the recipient). -/
theorem balance_reconciliation (ops : List Op) :
    ∀ w ∈ (applyOps emptyStore ops).wallets,
      w.balance = txSum (applyOps emptyStore ops).transactions w.userId :=
  (applyOps_wf_recon ops emptyStore emptyStore_WF emptyStore_recon).2

/-- C5: for a client wallet with balance 1000 and no reserves, a successful
create with amount 100 computes platformFee = 5 and totalAmount = 105 (the
funding transaction debits -105), and leaves the client wallet with balance
895, reservedBalance 100 and available balance 795, with the new escrow in
status funded. -/
theorem create_scenario_1000 :
    (createEscrow sClient1000 "client1" "freelancer1" none "Logo" "Design"
      100 "TND" "pm_1" none).2 = none ∧
    escrowStatusOf (createEscrow sClient1000 "client1" "freelancer1" none
      "Logo" "Design" 100 "TND" "pm_1" none).1 0 = some EscrowStatus.funded ∧
    ((createEscrow sClient1000 "client1" "freelancer1" none "Logo" "Design"
      100 "TND" "pm_1" none).1.escrows.map Escrow.platformFee) = [5] ∧
    ((createEscrow sClient1000 "client1" "freelancer1" none "Logo" "Design"
      100 "TND" "pm_1" none).1.transactions.map Transaction.amount) =
      [-105] ∧
    balanceOf (createEscrow sClient1000 "client1" "freelancer1" none "Logo"
      "Design" 100 "TND" "pm_1" none).1 "client1" = 895 ∧
    reservedOf (createEscrow sClient1000 "client1" "freelancer1" none "Logo"
      "Design" 100 "TND" "pm_1" none).1 "client1" = 100 ∧
    balanceOf (createEscrow sClient1000 "client1" "freelancer1" none "Logo"
      "Design" 100 "TND" "pm_1" none).1 "client1" -
      reservedOf (createEscrow sClient1000 "client1" "freelancer1" none
        "Logo" "Design" 100 "TND" "pm_1" none).1 "client1" = 795 := by
  refine ⟨?_, ?_, ?_, ?_, ?_, ?_, ?_⟩ <;>
    norm_num +decide [createEscrow, getOrCreateWallet, findWallet, walletSave,
      recalculateReservedBalance, reservesSum, upsertWallet, sClient1000,
      emptyStore, newWallet, balanceOf, reservedOf, escrowStatusOf]

/-- C1 counterexample: sClient150 satisfies every store invariant (balance
150 >= reservedBalance 0 = sum of no reserves, and reconciliation), yet the
single committed operation create(amount=100) passes the code's funds check
(total 105 <= available 150) and leaves the client wallet with balance 45 <
reservedBalance 100, refuting balance >= reservedBalance after every
committed operation. -/
theorem create_breaks_reserved_le_balance :
    StoreWF sClient150 ∧ AllWalletsInv sClient150 ∧ ReconInv sClient150 ∧
    (createEscrow sClient150 "c" "f" none "Logo" "Design" 100 "TND" "pm_1"
      none).2 = none ∧
    balanceOf (createEscrow sClient150 "c" "f" none "Logo" "Design" 100
      "TND" "pm_1" none).1 "c" = 45 ∧
    reservedOf (createEscrow sClient150 "c" "f" none "Logo" "Design" 100
      "TND" "pm_1" none).1 "c" = 100 ∧
    ¬ (reservedOf (createEscrow sClient150 "c" "f" none "Logo" "Design" 100
        "TND" "pm_1" none).1 "c" ≤
      balanceOf (createEscrow sClient150 "c" "f" none "Logo" "Design" 100
        "TND" "pm_1" none).1 "c") := by
  refine ⟨?_, ?_, ?_, ?_, ?_, ?_, ?_⟩ <;>
    norm_num +decide [createEscrow, getOrCreateWallet, findWallet, walletSave,
      recalculateReservedBalance, reservesSum, upsertWallet, sClient150,
      emptyStore, newWallet, balanceOf, reservedOf, StoreWF, AllWalletsInv,
      ReconInv, WalletInv, txSum]

/-- C6 counterexample: with available balance 50, create(amount=100) fails
the first funds check, whose error body carries requested = amount = 100,
not requested = totalAmount = 105 as the claim states. -/
theorem create_insufficient_requested_mismatch :
    (createEscrow sClient50 "c" "f" none "Logo" "Design" 100 "TND" "pm_1"
      none).2 = some (.insufficientFunds 50 100) ∧
    requestedOf (createEscrow sClient50 "c" "f" none "Logo" "Design" 100
      "TND" "pm_1" none).2 = some 100 ∧
    (100 : ℚ) + 100 * (5 / 100) = 105 ∧ (100 : ℚ) ≠ 105 := by
  refine ⟨?_, ?_, ?_, ?_⟩ <;>
    norm_num +decide [createEscrow, getOrCreateWallet, findWallet,
      sClient50, emptyStore, requestedOf]

/-- C7 counterexample: a deposit of a positive amount naming a
paymentMethodId that is not on the wallet fails with the 404 NotFound body,
not with a ValidationError as the claim states. -/
theorem deposit_unknown_method_not_validation :
    (deposit sZeroWithPm "u" 10 "TND" "pmX").2 =
      some (.notFound "Payment method not found") ∧
    isValidationError (deposit sZeroWithPm "u" 10 "TND" "pmX").2 = false := by
  refine ⟨?_, ?_⟩ <;>
    norm_num +decide [deposit, getOrCreateWallet, findWallet, sZeroWithPm,
      emptyStore, isValidationError]

/-- C3: the success path of a real deposit consists of two separately
committed writes (transaction.save, then wallet.save, with no session): the
committed store after the first write alone records the +100 Transaction
while the wallet balance is still 0, a partial state that the claimed
atomicity forbids; only after the second commit do the log and the balance
agree. The same sequential-save shape occurs in escrow create; only approve
wraps its writes in one session. -/
theorem deposit_commits_partially :
    ((depositCommitStates sZeroWithPm "u" 100 "TND" "pm_1").map
      (fun t => (txSum t.transactions "u", balanceOf t "u"))) =
      [(100, 0), (100, 100)] ∧
    (depositCommitStates sZeroWithPm "u" 100 "TND" "pm_1").getLast? =
      some (deposit sZeroWithPm "u" 100 "TND" "pm_1").1 ∧
    (deposit sZeroWithPm "u" 100 "TND" "pm_1").2 = none := by
  refine ⟨?_, ?_, ?_⟩ <;>
    norm_num +decide [depositCommitStates, deposit, getOrCreateWallet,
      findWallet, walletSave, recalculateReservedBalance, upsertWallet,
      sZeroWithPm, emptyStore, balanceOf, txSum]

/-- C6 (amended): for valid inputs and an existing client wallet, create
fails with an insufficient-funds error exactly when totalAmount = amount +
platformFee exceeds the available balance, and in that case no wallet,
escrow or transaction record is changed (the store is returned untouched;
only a missing client wallet would be lazily created by the wallet lookup
before the check). The error carries requested = amount when amount alone
already exceeds the available balance, and requested = totalAmount together
with platformFee only when amount fits but amount + platformFee does
not. -/
theorem create_insufficient_funds_amended (s : Store)
    (cid fid : String) (sid : Option String) (sn d : String) (a : ℚ)
    (cur p : String) (tm : Option String) (w : Wallet)
    (hcid : cid ≠ "") (hfid : fid ≠ "") (hsn : sn ≠ "") (hd : d ≠ "")
    (ha : 0 < a) (hp : p ≠ "")
    (hw : findWallet s cid = some w) :
    (a + a * (5 / 100) ≤ w.balance - w.reservedBalance →
      (createEscrow s cid fid sid sn d a cur p tm).2 = none) ∧
    (w.balance - w.reservedBalance < a →
      createEscrow s cid fid sid sn d a cur p tm =
        (s, some (.insufficientFunds (w.balance - w.reservedBalance) a))) ∧
    (a ≤ w.balance - w.reservedBalance →
      w.balance - w.reservedBalance < a + a * (5 / 100) →
      createEscrow s cid fid sid sn d a cur p tm =
        (s, some (.insufficientFundsFee (w.balance - w.reservedBalance)
          (a + a * (5 / 100)) (a * (5 / 100))))) ∧
    (w.balance - w.reservedBalance < a + a * (5 / 100) →
      (createEscrow s cid fid sid sn d a cur p tm).1 = s) := by
  have hval : ¬ (cid = "" ∨ fid = "" ∨ sn = "" ∨ d = "" ∨ a = 0 ∨ p = "") := by
    push_neg
    exact ⟨hcid, hfid, hsn, hd, ne_of_gt ha, hp⟩
  have hs : getOrCreateWallet s cid = (w, s) := by
    unfold getOrCreateWallet
    rw [hw]
  have hfee : 0 < a * (5 / 100) := mul_pos ha (by norm_num)
  simp only [createEscrow, if_neg hval, if_neg (not_le.2 ha), hs]
  refine ⟨?_, ?_, ?_, ?_⟩
  · intro h
    rw [if_neg (not_lt.2 (by linarith : a ≤ w.balance - w.reservedBalance)),
      if_neg (not_lt.2 h)]
  · intro h
    rw [if_pos h]
  · intro h1 h2
    rw [if_neg (not_lt.2 h1), if_pos h2]
  · intro h
    by_cases h2 : w.balance - w.reservedBalance < a
    · rw [if_pos h2]
    · rw [if_neg h2, if_pos h]

/-- C7 (amended): deposit fails with ValidationError when amount <= 0 or
when paymentMethodId is missing, and with NotFoundError when the provided
paymentMethodId does not resolve to a method on the caller wallet; in every
failure case no balance changes and no Transaction is appended (at most a
missing wallet is lazily created with zero balance by the middleware). -/
theorem deposit_validation_amended (s : Store) (u : String) (a : ℚ)
    (c p : String) (hu : u ≠ "") :
    (a ≤ 0 → (deposit s u a c p).2 =
      some (.validation "Valid amount is required")) ∧
    (0 < a → p = "" → (deposit s u a c p).2 =
      some (.validation "Payment method ID is required")) ∧
    (0 < a → p ≠ "" →
      (∀ m ∈ (getOrCreateWallet s u).1.paymentMethods, m.id ≠ p) →
      (deposit s u a c p).2 = some (.notFound "Payment method not found")) ∧
    ((deposit s u a c p).2.isSome →
      (deposit s u a c p).1.transactions = s.transactions ∧
      ∀ v, balanceOf (deposit s u a c p).1 v = balanceOf s v) := by
  simp only [deposit, if_neg hu]
  refine ⟨?_, ?_, ?_, ?_⟩
  · intro h
    rw [if_pos h]
  · intro h hp
    rw [if_neg (not_le.2 h), if_pos hp]
  · intro h hp hunk
    rw [if_neg (not_le.2 h), if_neg hp]
    have hnone : (getOrCreateWallet s u).1.paymentMethods.find?
        (fun m => m.id == p) = none := by
      rw [List.find?_eq_none]
      intro m hm
      simpa using hunk m hm
    rw [hnone]
  · by_cases h1 : a ≤ 0
    · rw [if_pos h1]
      intro _
      exact ⟨getOrCreateWallet_transactions s u,
        fun v => balanceOf_getOrCreateWallet s u v⟩
    · rw [if_neg h1]
      by_cases h2 : p = ""
      · rw [if_pos h2]
        intro _
        exact ⟨getOrCreateWallet_transactions s u,
          fun v => balanceOf_getOrCreateWallet s u v⟩
      · rw [if_neg h2]
        cases hpm : (getOrCreateWallet s u).1.paymentMethods.find?
            (fun m => m.id == p) with
        | none =>
            intro _
            exact ⟨getOrCreateWallet_transactions s u,
              fun v => balanceOf_getOrCreateWallet s u v⟩
        | some m =>
            intro hsome
            exact absurd hsome (by simp)

theorem wallet_invariant_step_witness :
    (newWallet "u").reservedBalance =
      reservesSum (newWallet "u").escrowReserves ∧
    0 ≤ (newWallet "u").reservedBalance ∧
    (newWallet "u").reservedBalance ≤ (newWallet "u").balance :=
  wallet_invariant_step emptyStore (Op.deposit "u" 10 "TND" "p")
    emptyStore_WF emptyStore_recon
    (fun w hw => absurd hw (by simp [emptyStore]))
    trivial (newWallet "u")
    (by norm_num +decide [applyOp, deposit, getOrCreateWallet, findWallet,
      emptyStore, walletSave, newWallet])

theorem balance_reconciliation_witness :
    (newWallet "u").balance = txSum
      (applyOps emptyStore [Op.deposit "u" 10 "TND" "p"]).transactions
      (newWallet "u").userId :=
  balance_reconciliation [Op.deposit "u" 10 "TND" "p"] (newWallet "u")
    (by norm_num +decide [applyOps, applyOp, deposit, getOrCreateWallet,
      findWallet, emptyStore, walletSave, newWallet])

theorem withdraw_checks_funds_before_method_witness :
    (withdraw sZeroWithPm "u" 5 "TND" "pmX").2 = some (.insufficientFunds
      ((getOrCreateWallet sZeroWithPm "u").1.balance -
        (getOrCreateWallet sZeroWithPm "u").1.reservedBalance) 5) :=
  withdraw_checks_funds_before_method sZeroWithPm "u" 5 "TND" "pmX"
    (by decide) (by norm_num) (by decide)
    (by norm_num +decide [getOrCreateWallet, findWallet, sZeroWithPm,
      emptyStore])
    (by norm_num +decide [getOrCreateWallet, findWallet, sZeroWithPm,
      emptyStore])

theorem deposit_validation_amended_witness :
    (deposit sZeroWithPm "u" 10 "TND" "pmY").2 =
      some (.notFound "Payment method not found") :=
  (deposit_validation_amended sZeroWithPm "u" 10 "TND" "pmY"
    (by decide)).2.2.1 (by norm_num) (by decide)
    (by norm_num +decide [getOrCreateWallet, findWallet, sZeroWithPm,
      emptyStore])

theorem create_insufficient_funds_amended_witness :
    createEscrow sClient50 "c" "f" none "Logo" "Design" 100 "TND" "pm_1"
      none = (sClient50, some (.insufficientFunds (50 - 0) 100)) :=
  (create_insufficient_funds_amended sClient50 "c" "f" none "Logo" "Design"
    100 "TND" "pm_1" none
    { userId := "c", balance := 50, currency := "TND", reservedBalance := 0,
      escrowReserves := [], paymentMethods := [], transactionIds := [] }
    (by decide) (by decide) (by decide) (by decide) (by norm_num)
    (by decide)
    (by norm_num +decide [findWallet, sClient50, emptyStore])).2.1
    (by norm_num)

theorem approve_releases_payment_witness :
    (approveEscrow sDelivered 0 "c" none none).2 = none ∧
    balanceOf (approveEscrow sDelivered 0 "c" none none).1 "f" =
      balanceOf sDelivered "f" + 100 :=
  let h := approve_releases_payment sDelivered 0 "c" none none
    { id := 0, clientId := "c", freelancerId := "f", serviceId := none,
      serviceName := "Logo", description := "Design", amount := 100,
      currency := "TND", platformFee := 5, paymentMethodId := "pm_1",
      transactionId := some 0, status := .delivered,
      deliveryMessage := some "done", deliveryFiles := [],
      approvalRating := none, approvalFeedback := none,
      disputeReason := none, terms := none }
    { userId := "c", balance := 895, currency := "TND",
      reservedBalance := 100,
      escrowReserves := [{ escrowId := 0, amount := 100 }],
      paymentMethods := [], transactionIds := [0] }
    0
    (by decide)
    (by norm_num +decide [sDelivered, emptyStore])
    (by decide) (by decide) (by decide)
    (by norm_num +decide [findWallet, sDelivered, emptyStore])
    (by norm_num +decide)
  ⟨h.1, h.2.2.2.2.1⟩

theorem approve_without_reserve_entry_witness :
    (approveEscrow sDeliveredNoRes 0 "c" none none).2 = none ∧
    reservedOf (approveEscrow sDeliveredNoRes 0 "c" none none).1 "c" =
      reservedOf sDeliveredNoRes "c" ∧
    balanceOf (approveEscrow sDeliveredNoRes 0 "c" none none).1 "f" =
      balanceOf sDeliveredNoRes "f" + 100 :=
  let h := approve_without_reserve_entry sDeliveredNoRes 0 "c" none none
    { id := 0, clientId := "c", freelancerId := "f", serviceId := none,
      serviceName := "Logo", description := "Design", amount := 100,
      currency := "TND", platformFee := 5, paymentMethodId := "pm_1",
      transactionId := some 0, status := .delivered,
      deliveryMessage := some "done", deliveryFiles := [],
      approvalRating := none, approvalFeedback := none,
      disputeReason := none, terms := none }
    { userId := "c", balance := 895, currency := "TND",
      reservedBalance := 0, escrowReserves := [],
      paymentMethods := [], transactionIds := [0] }
    (by decide)
    (by norm_num +decide [sDeliveredNoRes, sDelivered, emptyStore])
    (by decide) (by decide) (by decide)
    (by norm_num +decide [findWallet, sDeliveredNoRes, sDelivered,
      emptyStore])
    (by norm_num +decide)
    (Or.inl rfl)
  ⟨h.1, h.2.2.1, h.2.2.2.1⟩
